import Mathlib

/-
Formal model of the SIDTools rerun orchestrator (kestrel_scripts/s_rerun_imp2.py).

Modelling conventions:
- Filesystem paths are lists of name components (`FPath`). Joining a path with a
  component name appends one element, so distinct component structure can never
  alias the way raw strings could.  All paths are taken as already absolute;
  `os.path.abspath` on an absolute path is the identity.
- The filesystem is a state `FS`: directory-existence, file-existence,
  readability and text lines per path, plus a directory listing.  The Python
  functions are translated as pure functions that emit a list of `Event`s (the
  side effects, in order: mkdirs, file writes, copies, chmod, scheduler submit,
  and printed diagnostics).  The state after a call is obtained by folding
  `FS.applyEvent` over the emitted events.  A recursive `shutil.copytree` is
  modelled as creating the destination directory; the copied tree contents are
  never read back by the program.  `os.listdir` results are a fixed field of the
  state: no operation of this program creates or removes entries directly under
  the scanned base directory.
- String splitting on a single-character separator, digit tests and decimal
  parsing are given structurally recursive definitions mirroring the Python
  `str.split` / `str.isdigit` / `int` semantics on ASCII input.
- Fallible code (`find_helper_file`, which raises FileNotFoundError) returns
  `Except String`; `is_converged` swallows all exceptions in the source and is
  therefore a total `Bool` function here.
-/

set_option linter.unusedVariables false

abbrev FPath := List String

/-- Filesystem state observed and updated by the orchestrator. -/
structure FS where
  isDir : FPath → Bool
  isFile : FPath → Bool
  readOk : FPath → Bool
  lines : FPath → List String
  listdir : FPath → List String

/-- Python os.path.exists: true when the path is a file or a directory. -/
def FS.exists_ (fs : FS) (p : FPath) : Bool := fs.isFile p || fs.isDir p

/-- Side effects emitted by the orchestrator, in program order. -/
inductive Event where
  | mkdirs (p : FPath)
  | writeFile (p : FPath) (content : String)
  | copyFile (src dst : FPath)
  | copyTree (src dst : FPath)
  | chmodExec (p : FPath)
  | submit (cwd : FPath)
  | msg (s : String)
deriving DecidableEq

/-- Pointwise update of a Bool-valued path map. -/
def setB (f : FPath → Bool) (p : FPath) (v : Bool) : FPath → Bool :=
  fun q => if q = p then v else f q

/-- Pointwise update of a lines-valued path map. -/
def setL (f : FPath → List String) (p : FPath) (v : List String) : FPath → List String :=
  fun q => if q = p then v else f q

/-- Splitting a character list on a separator character, Python str.split semantics. -/
def splitOnCharAux (c : Char) : List Char → List Char → List String
  | [], acc => [String.mk acc.reverse]
  | x :: xs, acc =>
    if x = c then String.mk acc.reverse :: splitOnCharAux c xs []
    else splitOnCharAux c xs (x :: acc)

/-- Python s.split(sep) for a single-character separator. -/
def splitOnChar (c : Char) (s : String) : List String := splitOnCharAux c s.data []

/-- Effect of one event on the filesystem state.  A written file becomes an
existing, readable file whose lines are the written text split on newlines; a
copied file receives the readability and lines of its source; chmod, submit and
printing do not change the filesystem. -/
def FS.applyEvent (fs : FS) : Event → FS
  | Event.mkdirs p => { fs with isDir := setB fs.isDir p true }
  | Event.writeFile p c =>
      { fs with
        isFile := setB fs.isFile p true,
        readOk := setB fs.readOk p true,
        lines := setL fs.lines p (splitOnChar ('\n') c) }
  | Event.copyFile src dst =>
      { fs with
        isFile := setB fs.isFile dst true,
        readOk := setB fs.readOk dst (fs.readOk src),
        lines := setL fs.lines dst (fs.lines src) }
  | Event.copyTree _ dst => { fs with isDir := setB fs.isDir dst true }
  | Event.chmodExec _ => fs
  | Event.submit _ => fs
  | Event.msg _ => fs

/-- Effect of a list of events, applied in order. -/
def FS.applyEvents (fs : FS) (evs : List Event) : FS := evs.foldl FS.applyEvent fs

/-- Fixed marker line certifying convergence (module constant CONVERGENCE_MARKER). -/
def CONVERGENCE_MARKER : String :=
  "reached required accuracy - stopping structural energy minimisation"

/-- Python substring test `pat in s`, as a Bool over the character lists. -/
def strContainsB (s pat : String) : Bool :=
  s.data.tails.any (fun t => pat.data.isPrefixOf t)

/-- Translation of is_converged: open the artifact (readOk models a successful
open and read; any exception path returns false) and scan its lines for the
marker as a substring.  The source catches every exception, so the function is
total and never raises. -/
def is_converged (fs : FS) (outcar_path : FPath) : Bool :=
  if fs.readOk outcar_path then
    (fs.lines outcar_path).any (fun line => strContainsB line CONVERGENCE_MARKER)
  else false

/-- A batch-run environment: the current working directory, the directory the
orchestrator script resides in, and the externally observed outcome of an
sbatch invocation (none models the sbatch executable being absent). -/
structure SbatchResult where
  returncode : Int
  stdout : String
  stderr : String
deriving DecidableEq

structure Ctx where
  cwd : FPath
  scriptDir : FPath
  sbatch : Option SbatchResult

/-- Translation of find_helper_file: check helpers_dir (when given and truthy,
i.e. non-empty), then the current working directory, then the script directory;
return the first candidate that is a file, otherwise a FileNotFoundError whose
message is the one raised by the source. -/
def find_helper_file (ctx : Ctx) (fs : FS) (filename : String) (helpers_dir : Option FPath) :
    Except String FPath :=
  let fromCwdOrScriptDir : Except String FPath :=
    let cwd_candidate := ctx.cwd ++ [filename]
    if fs.isFile cwd_candidate then Except.ok cwd_candidate
    else
      let script_candidate := ctx.scriptDir ++ [filename]
      if fs.isFile script_candidate then Except.ok script_candidate
      else Except.error ("Could not find required file: " ++ filename)
  match helpers_dir with
  | some hd =>
    if hd.isEmpty then fromCwdOrScriptDir
    else
      let helpers_candidate := hd ++ [filename]
      if fs.isFile helpers_candidate then Except.ok helpers_candidate
      else fromCwdOrScriptDir
  | none => fromCwdOrScriptDir

/-- Python os.path.basename of a component-list path. -/
def basename (p : FPath) : String := p.getLastD ("")

/-- Rendering of a component-list path for diagnostic messages. -/
def pathStr (p : FPath) : String := String.intercalate ("/") p

/-- Name of the rerun directory: subfolder_name + "_run" + run_index. -/
def rerunName (subfolder_name : String) (run_index : Int) : String :=
  subfolder_name ++ "_run" ++ toString run_index

/-- The generated entry-point script text (local submit_contents in the source),
a pure function of the basename of the run directory. -/
def submit_contents (run_folder_basename : String) : String :=
  "import os, sys\n" ++
  "print(os.getcwd())\n" ++
  "from ase import io\n" ++
  "from src.kul_tools import KulTools as KT\n\n" ++
  "def main():\n" ++
  "    target = \x27" ++ run_folder_basename ++ "/CONTCAR\x27\n" ++
  "    try:\n" ++
  "        atoms = io.read(target)\n" ++
  "    except Exception as e:\n" ++
  "        print(f\x27Failed to read CONTCAR at \x7btarget\x7d: \x7be\x7d\x27)\n" ++
  "        return 1\n" ++
  "    atoms.pbc=True\n" ++
  "    kt = KT(gamma_only=False,structure_type=\x27zeo\x27)\n" ++
  "    kt.set_calculation_type(\x27opt\x27)\n" ++
  "    kt.set_structure(atoms)\n" ++
  "    kt.set_overall_vasp_params(\x7b\x27gga\x27:\x27RP\x27,\x27encut\x27:400,\x27lreal\x27:\x27Auto\x27, \x27algo\x27:\x27fast\x27, \x27isif\x27:3, \x27kpts\x27:(1,1,1)\x7d)\n" ++
  "    kt.run()\n" ++
  "    return 0\n\n" ++
  "if __name__ == \x27__main__\x27:\n" ++
  "    raise SystemExit(main())\n"

/-- Diagnostics reported for the submit subprocess: the returncode line plus the
stripped stdout and stderr when non-empty, or the missing-sbatch warning when
the executable is absent (subprocess.run raising FileNotFoundError). -/
def sbatch_report (sbatch : Option SbatchResult) (trajectory_dir : FPath) : List Event :=
  match sbatch with
  | some r =>
    [Event.msg ("Submitted sbatch in " ++ pathStr trajectory_dir ++
      " -> returncode=" ++ toString r.returncode)] ++
    (if r.stdout ≠ "" then [Event.msg (r.stdout.trim)] else []) ++
    (if r.stderr ≠ "" then [Event.msg (r.stderr.trim)] else [])
  | none =>
    [Event.msg ("Error: \x27sbatch\x27 command not found in PATH. Submit manually or load Slurm.")]

/-- Translation of prepare_and_submit_rerun.  Emits, in program order: mkdirs of
run_dir and trajectory_dir, the write of the freshly generated entry script into
the staging (trajectory) directory, then the helper lookup; on lookup failure
the FileNotFoundError propagates (Except.error) with the events so far already
performed.  On success: the copy of the submission script, the optional
duplicate copies into run_dir, the best-effort chmod, and either a dry-run
diagnostic or the submit invocation with its reported outcome. -/
def prepare_and_submit_rerun (ctx : Ctx) (fs : FS) (source_dir run_dir trajectory_dir : FPath)
    (helpers_dir : Option FPath) (copy_to_run_dir : Bool) (dry_run : Bool) :
    List Event × Except String Unit :=
  let e1 := Event.mkdirs run_dir
  let e2 := Event.mkdirs trajectory_dir
  let dst_submit_traj := trajectory_dir ++ ["01_submit_rerun.py"]
  let dst_script_traj := trajectory_dir ++ ["script_rerun.sh"]
  let run_folder_basename := basename run_dir
  let contents := submit_contents run_folder_basename
  let e3 := Event.writeFile dst_submit_traj contents
  let fs2 := fs.applyEvents [e1, e2, e3]
  match find_helper_file ctx fs2 ("script_rerun.sh") helpers_dir with
  | Except.error emsg => ([e1, e2, e3], Except.error emsg)
  | Except.ok src_script =>
    let e4 := Event.copyFile src_script dst_script_traj
    let copyEvs :=
      if copy_to_run_dir then
        [Event.writeFile (run_dir ++ ["01_submit_rerun.py"]) contents,
         Event.copyFile src_script (run_dir ++ ["script_rerun.sh"])]
      else []
    let e5 := Event.chmodExec dst_script_traj
    if dry_run then
      ([e1, e2, e3, e4] ++ copyEvs ++
        [e5, Event.msg ("[DRY-RUN] Would submit: sbatch script_rerun.sh (cwd=" ++
          pathStr trajectory_dir ++ ")")],
       Except.ok ())
    else
      ([e1, e2, e3, e4] ++ copyEvs ++ [e5, Event.submit trajectory_dir] ++
         sbatch_report ctx.sbatch trajectory_dir,
       Except.ok ())

/-- The last underscore-separated field of a name: x.split("_")[-1]. -/
def lastField (x : String) : String := (splitOnChar ('_') x).getLastD ("")

/-- Python str.isdigit on ASCII: non-empty and all digits. -/
def pyIsDigit (s : String) : Bool := !s.data.isEmpty && s.data.all (Char.isDigit)

/-- Decimal value of a digit string, Python int(s). -/
def decimalVal (s : String) : Nat := s.data.foldl (fun a c => a * 10 + (c.toNat - 48)) 0

/-- The sort key of the source: int(x.split("_")[-1]) when the last field is all
digits, otherwise infinity, rendered here as none on top of some. -/
def sortKey (x : String) : Option Nat :=
  if pyIsDigit (lastField x) then some (decimalVal (lastField x)) else none

/-- Comparison of sort keys, with none as positive infinity. -/
def keyLe : Option Nat → Option Nat → Bool
  | _, none => true
  | none, some _ => false
  | some a, some b => decide (a ≤ b)

/-- The total preorder the directory scan sorts by. -/
def trajLe (a b : String) : Prop := keyLe (sortKey a) (sortKey b) = true

instance : DecidableRel trajLe := fun a b => inferInstanceAs (Decidable (_ = true))

/-- Python s.startswith(pre). -/
def startsWithB (s pre : String) : Bool := pre.data.isPrefixOf s.data

/-- The scan of the base folder: keep listed entries that are directories and
start with the prefix string, then sort them stably by sortKey ascending.
Python sorted(key=...) is the stable sort by the key order, which insertionSort
with the total preorder trajLe computes. -/
def trajectoryDirs (fs : FS) (base_folder : FPath) : List String :=
  List.insertionSort trajLe
    ((fs.listdir base_folder).filter
      (fun d => fs.isDir (base_folder ++ [d]) && startsWithB d ("trajectory_")))

/-- The per-trajectory body of the process loop, emitting its events. -/
def processFolder (ctx : Ctx) (fs : FS) (base_folder : FPath) (subfolder_name : String)
    (run_index : Int) (helpers_dir : Option FPath) (dry_run : Bool) (folder : String) :
    List Event :=
  let traj_dir := base_folder ++ [folder]
  let source_dir := traj_dir ++ [subfolder_name]
  let outcar_path := source_dir ++ ["OUTCAR"]
  if !fs.isDir source_dir then
    [Event.msg ("Skipping " ++ folder ++ ": missing subfolder \x27" ++ subfolder_name ++ "\x27.")]
  else if !fs.isFile outcar_path then
    [Event.msg ("Skipping " ++ folder ++ ": missing OUTCAR in \x27" ++ subfolder_name ++ "\x27.")]
  else if is_converged fs outcar_path then
    [Event.msg ("Converged: " ++ folder ++ "/" ++ subfolder_name)]
  else
    let ev0 := [Event.msg ("Not converged: " ++ folder ++ "/" ++ subfolder_name ++
      " -> creating rerun folder")]
    let rerun_dir_name := rerunName subfolder_name run_index
    let rerun_dir := traj_dir ++ [rerun_dir_name]
    let stageEvs :=
      if fs.exists_ rerun_dir then
        [Event.msg ("Rerun folder already exists: " ++ folder ++ "/" ++ rerun_dir_name ++
          ". Will reuse it.")]
      else if dry_run then
        [Event.msg ("[DRY-RUN] Would copy folder: " ++ pathStr source_dir ++ " -> " ++
          pathStr rerun_dir)]
      else
        [Event.copyTree source_dir rerun_dir]
    let fs1 := fs.applyEvents stageEvs
    match prepare_and_submit_rerun ctx fs1 source_dir rerun_dir traj_dir helpers_dir false dry_run with
    | (evs, Except.ok _) => ev0 ++ stageEvs ++ evs
    | (evs, Except.error e) =>
      ev0 ++ stageEvs ++ evs ++
        [Event.msg e,
         Event.msg ("Skipping submission for " ++ folder ++ "/" ++ rerun_dir_name ++
           " due to missing helper file(s).")]

/-- Sequential processing of a list of trajectory folder names, threading the
filesystem state between iterations. -/
def processList (ctx : Ctx) (base_folder : FPath) (subfolder_name : String) (run_index : Int)
    (helpers_dir : Option FPath) (dry_run : Bool) : FS → List String → List Event
  | _, [] => []
  | fs, folder :: rest =>
    let evs := processFolder ctx fs base_folder subfolder_name run_index helpers_dir dry_run folder
    evs ++ processList ctx base_folder subfolder_name run_index helpers_dir dry_run
      (fs.applyEvents evs) rest

/-- Translation of process: scan the base folder once, then run the loop body
over the sorted trajectory directories. -/
def process (ctx : Ctx) (fs : FS) (base_folder : FPath) (subfolder_name : String) (run_index : Int)
    (helpers_dir : Option FPath) (dry_run : Bool) : List Event :=
  processList ctx base_folder subfolder_name run_index helpers_dir dry_run fs
    (trajectoryDirs fs base_folder)

/-- Classification of a trajectory folder by the process loop, a pure function
of the decision-relevant filesystem observations. -/
inductive FolderClass where
  | missingSub
  | missingOutcar
  | convergedF
  | rerunF
deriving DecidableEq

/-- The branch the process loop takes for one folder. -/
def classify (fs : FS) (base_folder : FPath) (subfolder_name : String) (folder : String) :
    FolderClass :=
  if !fs.isDir ((base_folder ++ [folder]) ++ [subfolder_name]) then FolderClass.missingSub
  else if !fs.isFile (((base_folder ++ [folder]) ++ [subfolder_name]) ++ ["OUTCAR"]) then
    FolderClass.missingOutcar
  else if is_converged fs (((base_folder ++ [folder]) ++ [subfolder_name]) ++ ["OUTCAR"]) then
    FolderClass.convergedF
  else FolderClass.rerunF

/-- The three candidate locations the helper locator checks, in order. -/
def helper_candidates (ctx : Ctx) (filename : String) (helpers_dir : Option FPath) :
    List FPath :=
  (match helpers_dir with
   | some hd => if hd.isEmpty then [] else [hd ++ [filename]]
   | none => []) ++ [ctx.cwd ++ [filename], ctx.scriptDir ++ [filename]]

/-- Whether the helper lookup for the submission script can succeed in a state. -/
def helperFound (ctx : Ctx) (fs : FS) (helpers_dir : Option FPath) : Bool :=
  (helper_candidates ctx ("script_rerun.sh") helpers_dir).any (fun c => fs.isFile c)

/-- Paths whose directory-existence an event sets. -/
def Event.dirWrites : Event → List FPath
  | Event.mkdirs p => [p]
  | Event.copyTree _ dst => [dst]
  | _ => []

/-- Paths whose file-existence, readability or lines an event sets. -/
def Event.fileWrites : Event → List FPath
  | Event.writeFile p _ => [p]
  | Event.copyFile _ dst => [dst]
  | _ => []

theorem applyEvents_nil (fs : FS) : fs.applyEvents [] = fs := rfl

theorem applyEvents_cons (fs : FS) (e : Event) (evs : List Event) :
    fs.applyEvents (e :: evs) = (fs.applyEvent e).applyEvents evs := rfl

theorem applyEvents_append (fs : FS) (a b : List Event) :
    fs.applyEvents (a ++ b) = (fs.applyEvents a).applyEvents b :=
  List.foldl_append FS.applyEvent fs a b

theorem applyEvents_msg (fs : FS) (s : String) (evs : List Event) :
    fs.applyEvents (Event.msg s :: evs) = fs.applyEvents evs := rfl

theorem listdir_applyEvent (fs : FS) (e : Event) : (fs.applyEvent e).listdir = fs.listdir := by
  cases e <;> rfl

theorem listdir_applyEvents (fs : FS) (evs : List Event) :
    (fs.applyEvents evs).listdir = fs.listdir := by
  induction evs generalizing fs with
  | nil => rfl
  | cons e evs ih => rw [applyEvents_cons, ih, listdir_applyEvent]

theorem isDir_applyEvent_ne (fs : FS) (e : Event) (q : FPath) (h : q ∉ e.dirWrites) :
    (fs.applyEvent e).isDir q = fs.isDir q := by
  cases e <;> simp [Event.dirWrites] at h ⊢ <;> simp [FS.applyEvent, setB, h]

theorem isFile_applyEvent_ne (fs : FS) (e : Event) (q : FPath) (h : q ∉ e.fileWrites) :
    (fs.applyEvent e).isFile q = fs.isFile q := by
  cases e <;> simp [Event.fileWrites] at h ⊢ <;> simp [FS.applyEvent, setB, h]

theorem readOk_applyEvent_ne (fs : FS) (e : Event) (q : FPath) (h : q ∉ e.fileWrites) :
    (fs.applyEvent e).readOk q = fs.readOk q := by
  cases e <;> simp [Event.fileWrites] at h ⊢ <;> simp [FS.applyEvent, setB, h]

theorem lines_applyEvent_ne (fs : FS) (e : Event) (q : FPath) (h : q ∉ e.fileWrites) :
    (fs.applyEvent e).lines q = fs.lines q := by
  cases e <;> simp [Event.fileWrites] at h ⊢ <;> simp [FS.applyEvent, setB, setL, h]

theorem isDir_applyEvents_ne (fs : FS) (evs : List Event) (q : FPath)
    (h : ∀ e ∈ evs, q ∉ e.dirWrites) : (fs.applyEvents evs).isDir q = fs.isDir q := by
  induction evs generalizing fs with
  | nil => rfl
  | cons e evs ih =>
    rw [applyEvents_cons, ih _ (fun x hx => h x (List.mem_cons_of_mem e hx)),
      isDir_applyEvent_ne _ _ _ (h e (List.mem_cons_self e evs))]

theorem isFile_applyEvents_ne (fs : FS) (evs : List Event) (q : FPath)
    (h : ∀ e ∈ evs, q ∉ e.fileWrites) : (fs.applyEvents evs).isFile q = fs.isFile q := by
  induction evs generalizing fs with
  | nil => rfl
  | cons e evs ih =>
    rw [applyEvents_cons, ih _ (fun x hx => h x (List.mem_cons_of_mem e hx)),
      isFile_applyEvent_ne _ _ _ (h e (List.mem_cons_self e evs))]

theorem readOk_applyEvents_ne (fs : FS) (evs : List Event) (q : FPath)
    (h : ∀ e ∈ evs, q ∉ e.fileWrites) : (fs.applyEvents evs).readOk q = fs.readOk q := by
  induction evs generalizing fs with
  | nil => rfl
  | cons e evs ih =>
    rw [applyEvents_cons, ih _ (fun x hx => h x (List.mem_cons_of_mem e hx)),
      readOk_applyEvent_ne _ _ _ (h e (List.mem_cons_self e evs))]

theorem lines_applyEvents_ne (fs : FS) (evs : List Event) (q : FPath)
    (h : ∀ e ∈ evs, q ∉ e.fileWrites) : (fs.applyEvents evs).lines q = fs.lines q := by
  induction evs generalizing fs with
  | nil => rfl
  | cons e evs ih =>
    rw [applyEvents_cons, ih _ (fun x hx => h x (List.mem_cons_of_mem e hx)),
      lines_applyEvent_ne _ _ _ (h e (List.mem_cons_self e evs))]

theorem isDir_applyEvent_mono (fs : FS) (e : Event) (q : FPath) (h : fs.isDir q = true) :
    (fs.applyEvent e).isDir q = true := by
  cases e <;> simp [FS.applyEvent, setB, h]

theorem isFile_applyEvent_mono (fs : FS) (e : Event) (q : FPath) (h : fs.isFile q = true) :
    (fs.applyEvent e).isFile q = true := by
  cases e <;> simp [FS.applyEvent, setB, h]

theorem isDir_applyEvents_mono (fs : FS) (evs : List Event) (q : FPath)
    (h : fs.isDir q = true) : (fs.applyEvents evs).isDir q = true := by
  induction evs generalizing fs with
  | nil => exact h
  | cons e evs ih => exact ih _ (isDir_applyEvent_mono fs e q h)

theorem isFile_applyEvents_mono (fs : FS) (evs : List Event) (q : FPath)
    (h : fs.isFile q = true) : (fs.applyEvents evs).isFile q = true := by
  induction evs generalizing fs with
  | nil => exact h
  | cons e evs ih => exact ih _ (isFile_applyEvent_mono fs e q h)

theorem exists_applyEvents_mono (fs : FS) (evs : List Event) (q : FPath)
    (h : fs.exists_ q = true) : (fs.applyEvents evs).exists_ q = true := by
  unfold FS.exists_ at h ⊢
  rcases Bool.or_eq_true_iff.mp h with h | h
  · exact Bool.or_eq_true_iff.mpr (Or.inl (isFile_applyEvents_mono fs evs q h))
  · exact Bool.or_eq_true_iff.mpr (Or.inr (isDir_applyEvents_mono fs evs q h))

theorem isDir_of_mkdirs_mem (fs : FS) (evs : List Event) (p : FPath)
    (h : Event.mkdirs p ∈ evs) : (fs.applyEvents evs).isDir p = true := by
  induction evs generalizing fs with
  | nil => cases h
  | cons e evs ih =>
    rw [applyEvents_cons]
    rcases List.mem_cons.mp h with h | h
    · subst h
      exact isDir_applyEvents_mono _ evs p (by simp [FS.applyEvent, setB])
    · exact ih _ h

theorem isPrefixOf_eq_true_iff {α : Type} [DecidableEq α] (l₁ l₂ : List α) :
    l₁.isPrefixOf l₂ = true ↔ ∃ r, l₁ ++ r = l₂ := by
  induction l₁ generalizing l₂ with
  | nil => simp [List.isPrefixOf]
  | cons a as ih =>
    cases l₂ with
    | nil => simp [List.isPrefixOf]
    | cons b bs =>
      simp only [List.isPrefixOf, Bool.and_eq_true, beq_iff_eq, ih, List.cons_append,
        List.cons.injEq]
      constructor
      · rintro ⟨rfl, r, rfl⟩
        exact ⟨r, rfl, rfl⟩
      · rintro ⟨r, rfl, rfl⟩
        exact ⟨rfl, r, rfl⟩

theorem strContainsB_iff (s pat : String) :
    strContainsB s pat = true ↔ ∃ pre post, pre ++ pat.data ++ post = s.data := by
  unfold strContainsB
  rw [List.any_eq_true]
  constructor
  · rintro ⟨t, ht, hp⟩
    obtain ⟨pre, hpre⟩ := (List.mem_tails t s.data).mp ht
    obtain ⟨post, hpost⟩ := (isPrefixOf_eq_true_iff pat.data t).mp hp
    exact ⟨pre, post, by rw [List.append_assoc, hpost, hpre]⟩
  · rintro ⟨pre, post, h⟩
    refine ⟨pat.data ++ post, (List.mem_tails _ _).mpr ⟨pre, by rw [← List.append_assoc, h]⟩, ?_⟩
    exact (isPrefixOf_eq_true_iff pat.data _).mpr ⟨post, rfl⟩

/-- C1: is_converged is true exactly on readable artifacts one of whose lines
contains the marker as a substring; on every other input (no marker, empty
file, unreadable or missing file, any read error) it is false.  The translated
function is total, reflecting that the source catches every exception and
never raises. -/
theorem C1_is_converged_characterization (fs : FS) (p : FPath) :
    is_converged fs p = true ↔
      (fs.readOk p = true ∧
        ∃ l ∈ fs.lines p, ∃ pre post : List Char,
          pre ++ CONVERGENCE_MARKER.data ++ post = l.data) := by
  unfold is_converged
  by_cases hr : fs.readOk p = true
  · simp only [hr, if_pos, List.any_eq_true, true_and]
    constructor
    · rintro ⟨l, hl, hc⟩
      exact ⟨l, hl, (strContainsB_iff l CONVERGENCE_MARKER).mp hc⟩
    · rintro ⟨l, hl, hc⟩
      exact ⟨l, hl, (strContainsB_iff l CONVERGENCE_MARKER).mpr hc⟩
  · simp [hr]

/-- C5: the helper locator equals first-match search over the ordered candidate
list (helpers_dir when given and non-empty, then the working directory, then
the script directory), failing with the FileNotFoundError message when no
candidate is a file. -/
theorem C5_locator_first_match (ctx : Ctx) (fs : FS) (filename : String)
    (helpers_dir : Option FPath) :
    find_helper_file ctx fs filename helpers_dir =
      (match (helper_candidates ctx filename helpers_dir).find? (fun c => fs.isFile c) with
       | some c => Except.ok c
       | none => Except.error ("Could not find required file: " ++ filename)) := by
  cases helpers_dir with
  | none =>
    simp only [find_helper_file, helper_candidates, List.nil_append]
    by_cases h1 : fs.isFile (ctx.cwd ++ [filename]) <;>
      by_cases h2 : fs.isFile (ctx.scriptDir ++ [filename]) <;>
        simp [h1, h2, List.find?]
  | some hd =>
    by_cases he : hd.isEmpty
    · simp only [find_helper_file, helper_candidates, he, if_true]
      by_cases h1 : fs.isFile (ctx.cwd ++ [filename]) <;>
        by_cases h2 : fs.isFile (ctx.scriptDir ++ [filename]) <;>
          simp [h1, h2, List.find?]
    · simp only [find_helper_file, helper_candidates, he, if_false, Bool.false_eq_true]
      by_cases h0 : fs.isFile (hd ++ [filename]) <;>
        by_cases h1 : fs.isFile (ctx.cwd ++ [filename]) <;>
          by_cases h2 : fs.isFile (ctx.scriptDir ++ [filename]) <;>
            simp [h0, h1, h2, List.find?]

instance : IsTotal String trajLe := by
  constructor
  intro a b
  unfold trajLe
  cases sortKey a <;> cases sortKey b <;> simp [keyLe] <;> omega

instance : IsTrans String trajLe := by
  constructor
  intro a b c
  unfold trajLe
  cases sortKey a <;> cases sortKey b <;> cases sortKey c <;> simp [keyLe] <;> omega

theorem trajLe_of_none {x : String} (hx : (sortKey x).isNone = true) (b : String) :
    trajLe x b ↔ (sortKey b).isNone = true := by
  unfold trajLe
  cases hxs : sortKey x with
  | some v => rw [hxs] at hx; cases hx
  | none => cases sortKey b <;> simp [keyLe]

theorem filter_none_orderedInsert_none {x : String} (hx : (sortKey x).isNone = true)
    (l : List String) :
    (List.orderedInsert trajLe x l).filter (fun d => (sortKey d).isNone) =
      x :: l.filter (fun d => (sortKey d).isNone) := by
  induction l with
  | nil => simp [List.orderedInsert, hx]
  | cons b l ih =>
    by_cases hb : trajLe x b
    · simp [List.orderedInsert, hb, hx]
    · have hbn : (sortKey b).isNone = false := by
        rcases Bool.eq_false_or_eq_true (sortKey b).isNone with h | h
        · exact absurd ((trajLe_of_none hx b).mpr h) hb
        · exact h
      simp [List.orderedInsert, hb, hbn, ih]

theorem filter_none_orderedInsert_some {x : String} (hx : (sortKey x).isNone = false)
    (l : List String) :
    (List.orderedInsert trajLe x l).filter (fun d => (sortKey d).isNone) =
      l.filter (fun d => (sortKey d).isNone) := by
  induction l with
  | nil => simp [List.orderedInsert, hx]
  | cons b l ih =>
    by_cases hb : trajLe x b
    · simp [List.orderedInsert, hb, hx]
    · simp only [List.orderedInsert, if_neg hb, List.filter_cons]
      rw [ih]

theorem filter_none_insertionSort (l : List String) :
    (List.insertionSort trajLe l).filter (fun d => (sortKey d).isNone) =
      l.filter (fun d => (sortKey d).isNone) := by
  induction l with
  | nil => rfl
  | cons a l ih =>
    rcases Bool.eq_false_or_eq_true (sortKey a).isNone with ha | ha
    · rw [List.insertionSort, filter_none_orderedInsert_none ha, ih, List.filter_cons,
        ha]
      simp
    · rw [List.insertionSort, filter_none_orderedInsert_some ha, ih, List.filter_cons,
        ha]
      simp

/-- C4: the processing order is sorted by the numeric-suffix key (pairwise
trajLe, whose order puts non-numeric names, key infinity, after every numeric
one and is non-decreasing on numeric suffixes); it is a permutation of the
selected entries; and the non-numeric names appear in exactly their original
relative listing order. -/
theorem C4_processing_order (fs : FS) (base_folder : FPath) :
    List.Pairwise trajLe (trajectoryDirs fs base_folder) ∧
    List.Perm (trajectoryDirs fs base_folder)
      ((fs.listdir base_folder).filter
        (fun d => fs.isDir (base_folder ++ [d]) && startsWithB d ("trajectory_"))) ∧
    (trajectoryDirs fs base_folder).filter (fun d => (sortKey d).isNone) =
      ((fs.listdir base_folder).filter
        (fun d => fs.isDir (base_folder ++ [d]) && startsWithB d ("trajectory_"))).filter
        (fun d => (sortKey d).isNone) := by
  refine ⟨?_, ?_, ?_⟩
  · exact List.sorted_insertionSort trajLe _
  · exact List.perm_insertionSort trajLe _
  · exact filter_none_insertionSort _

/-- C10: the scan selects exactly the listed subdirectories whose name starts
with the prefix string trajectory_, including names with empty or non-numeric
suffixes; the sort key is the integer value of the last underscore-separated
component alone (infinity when it is not all digits). -/
theorem C10_selection_and_key (fs : FS) (base_folder : FPath) :
    (∀ d, d ∈ trajectoryDirs fs base_folder ↔
        (d ∈ fs.listdir base_folder ∧ fs.isDir (base_folder ++ [d]) = true ∧
         startsWithB d ("trajectory_") = true)) ∧
    startsWithB ("trajectory_abc") ("trajectory_") = true ∧
    startsWithB ("trajectory_") ("trajectory_") = true ∧
    sortKey ("trajectory_abc") = none ∧
    sortKey ("trajectory_") = none ∧
    sortKey ("trajectory_10_3") = some 3 ∧
    sortKey ("trajectory_7") = some 7 := by
  refine ⟨?_, by decide, by decide, by decide, by decide, by decide, by decide⟩
  intro d
  rw [trajectoryDirs, (List.perm_insertionSort trajLe _).mem_iff, List.mem_filter,
    Bool.and_eq_true]

theorem append_len_ne {base l₁ l₂ : FPath} (h : l₁.length ≠ l₂.length) :
    base ++ l₁ ≠ base ++ l₂ := by
  intro hc
  exact h (by have := congrArg List.length hc; simpa using this)

theorem append_singleton_inj {base : FPath} {x y : String}
    (h : base ++ [x] = base ++ [y]) : x = y := by
  have := congrArg (List.drop base.length) h
  simpa [List.drop_left] using this

theorem append_pair_inj {base : FPath} {x y u v : String}
    (h : base ++ [x, y] = base ++ [u, v]) : x = u ∧ y = v := by
  have := congrArg (List.drop base.length) h
  rw [List.drop_append_of_le_length (le_refl _), List.drop_append_of_le_length (le_refl _)] at this
  simp at this
  exact this

theorem concat_ne_of_last_ne {a b : FPath} {x y : String} (h : x ≠ y) :
    a ++ [x] ≠ b ++ [y] := by
  intro hc
  refine h ?_
  have := congrArg (fun l => List.getLastD l ("")) hc
  simpa [List.getLastD_concat] using this

theorem rerunName_ne_sub (subfolder_name : String) (run_index : Int) :
    rerunName subfolder_name run_index ≠ subfolder_name := by
  intro hc
  have := congrArg String.length hc
  rw [rerunName, String.length_append, String.length_append] at this
  have h4 : ("_run").length = 4 := by decide
  omega

theorem basename_concat (p : FPath) (x : String) : basename (p ++ [x]) = x := by
  simp [basename, List.getLastD_concat]

/-- Equality of the observations the process loop bases its per-folder decisions
on: the base listing, directory-status of the listed entries, directory-status
of each candidate calculation subfolder, and existence, readability and lines of
each candidate output artifact. -/
def DecisionsEq (fs0 fs : FS) (base_folder : FPath) (subfolder_name : String) : Prop :=
  fs.listdir base_folder = fs0.listdir base_folder ∧
  (∀ d, fs.isDir (base_folder ++ [d]) = fs0.isDir (base_folder ++ [d])) ∧
  (∀ g, fs.isDir ((base_folder ++ [g]) ++ [subfolder_name]) =
    fs0.isDir ((base_folder ++ [g]) ++ [subfolder_name])) ∧
  (∀ g, fs.isFile (((base_folder ++ [g]) ++ [subfolder_name]) ++ ["OUTCAR"]) =
    fs0.isFile (((base_folder ++ [g]) ++ [subfolder_name]) ++ ["OUTCAR"])) ∧
  (∀ g, fs.readOk (((base_folder ++ [g]) ++ [subfolder_name]) ++ ["OUTCAR"]) =
    fs0.readOk (((base_folder ++ [g]) ++ [subfolder_name]) ++ ["OUTCAR"])) ∧
  (∀ g, fs.lines (((base_folder ++ [g]) ++ [subfolder_name]) ++ ["OUTCAR"]) =
    fs0.lines (((base_folder ++ [g]) ++ [subfolder_name]) ++ ["OUTCAR"]))

theorem DecisionsEq.refl (fs : FS) (base_folder : FPath) (subfolder_name : String) :
    DecisionsEq fs fs base_folder subfolder_name :=
  ⟨rfl, fun _ => rfl, fun _ => rfl, fun _ => rfl, fun _ => rfl, fun _ => rfl⟩

theorem DecisionsEq.trans {fs0 fs1 fs2 : FS} {base_folder : FPath} {subfolder_name : String}
    (h01 : DecisionsEq fs0 fs1 base_folder subfolder_name)
    (h12 : DecisionsEq fs1 fs2 base_folder subfolder_name) :
    DecisionsEq fs0 fs2 base_folder subfolder_name := by
  obtain ⟨a0, b0, c0, d0, e0, f0⟩ := h01
  obtain ⟨a1, b1, c1, d1, e1, f1⟩ := h12
  exact ⟨a1.trans a0, fun d => (b1 d).trans (b0 d), fun g => (c1 g).trans (c0 g),
    fun g => (d1 g).trans (d0 g), fun g => (e1 g).trans (e0 g), fun g => (f1 g).trans (f0 g)⟩

theorem is_converged_congr {fs0 fs : FS} {p : FPath}
    (hr : fs.readOk p = fs0.readOk p) (hl : fs.lines p = fs0.lines p) :
    is_converged fs p = is_converged fs0 p := by
  unfold is_converged
  rw [hr, hl]

theorem classify_congr {fs0 fs : FS} {base_folder : FPath} {subfolder_name : String}
    (h : DecisionsEq fs0 fs base_folder subfolder_name) (f : String) :
    classify fs base_folder subfolder_name f = classify fs0 base_folder subfolder_name f := by
  unfold classify
  rw [h.2.2.1 f, h.2.2.2.1 f, is_converged_congr (h.2.2.2.2.1 f) (h.2.2.2.2.2 f)]

theorem trajectoryDirs_congr {fs0 fs : FS} {base_folder : FPath} {subfolder_name : String}
    (h : DecisionsEq fs0 fs base_folder subfolder_name) :
    trajectoryDirs fs base_folder = trajectoryDirs fs0 base_folder := by
  unfold trajectoryDirs
  rw [h.1]
  congr 1
  exact List.filter_congr (fun d _ => by rw [h.2.1 d])

theorem helperFound_applyEvents_mono (ctx : Ctx) (fs : FS) (helpers_dir : Option FPath)
    (evs : List Event) (h : helperFound ctx fs helpers_dir = true) :
    helperFound ctx (fs.applyEvents evs) helpers_dir = true := by
  unfold helperFound at h ⊢
  rw [List.any_eq_true] at h ⊢
  obtain ⟨c, hc, hf⟩ := h
  exact ⟨c, hc, isFile_applyEvents_mono fs evs c hf⟩

theorem find_ok_of_helperFound (ctx : Ctx) (fs : FS) (helpers_dir : Option FPath)
    (h : helperFound ctx fs helpers_dir = true) :
    ∃ s, find_helper_file ctx fs ("script_rerun.sh") helpers_dir = Except.ok s := by
  rw [C5_locator_first_match]
  unfold helperFound at h
  rw [List.any_eq_true] at h
  obtain ⟨c, hc, hf⟩ := h
  cases hfind : (helper_candidates ctx ("script_rerun.sh") helpers_dir).find?
      (fun c => fs.isFile c) with
  | some c2 => exact ⟨c2, rfl⟩
  | none =>
    rw [List.find?_eq_none] at hfind
    exact absurd hf (by simpa using hfind c hc)

theorem find_error_of_not_helperFound (ctx : Ctx) (fs : FS) (helpers_dir : Option FPath)
    (h : helperFound ctx fs helpers_dir = false) :
    find_helper_file ctx fs ("script_rerun.sh") helpers_dir =
      Except.error ("Could not find required file: script_rerun.sh") := by
  rw [C5_locator_first_match]
  unfold helperFound at h
  have hnone : (helper_candidates ctx ("script_rerun.sh") helpers_dir).find?
      (fun c => fs.isFile c) = none := by
    rw [List.find?_eq_none]
    intro c hc hf
    exact absurd (List.any_eq_true.mpr ⟨c, hc, hf⟩) (by simp [h])
  rw [hnone]
  rfl

theorem sbatch_report_msgs (s : Option SbatchResult) (t : FPath) (e : Event)
    (he : e ∈ sbatch_report s t) : ∃ m, e = Event.msg m := by
  cases s with
  | none =>
    simp [sbatch_report] at he
    exact ⟨_, he⟩
  | some r =>
    simp only [sbatch_report, List.mem_append, List.mem_singleton] at he
    rcases he with (h | h) | h
    · exact ⟨_, h⟩
    · by_cases hs : r.stdout ≠ "" <;> simp [hs] at h
      exact ⟨_, h⟩
    · by_cases hs : r.stderr ≠ "" <;> simp [hs] at h
      exact ⟨_, h⟩

theorem prepare_eq_of_find_error (ctx : Ctx) (fs : FS) (src run traj : FPath)
    (hd : Option FPath) (cpy dry : Bool) (m : String)
    (hf : find_helper_file ctx (fs.applyEvents
        [Event.mkdirs run, Event.mkdirs traj,
         Event.writeFile (traj ++ ["01_submit_rerun.py"]) (submit_contents (basename run))])
        ("script_rerun.sh") hd = Except.error m) :
    prepare_and_submit_rerun ctx fs src run traj hd cpy dry =
      ([Event.mkdirs run, Event.mkdirs traj,
        Event.writeFile (traj ++ ["01_submit_rerun.py"]) (submit_contents (basename run))],
       Except.error m) := by
  simp only [prepare_and_submit_rerun, hf]

theorem prepare_snd_ok_of_find_ok (ctx : Ctx) (fs : FS) (src run traj : FPath)
    (hd : Option FPath) (cpy dry : Bool) (s : FPath)
    (hf : find_helper_file ctx (fs.applyEvents
        [Event.mkdirs run, Event.mkdirs traj,
         Event.writeFile (traj ++ ["01_submit_rerun.py"]) (submit_contents (basename run))])
        ("script_rerun.sh") hd = Except.ok s) :
    (prepare_and_submit_rerun ctx fs src run traj hd cpy dry).2 = Except.ok () := by
  simp only [prepare_and_submit_rerun, hf]
  cases dry <;> simp

theorem prepare_eq_of_find_ok_live (ctx : Ctx) (fs : FS) (src run traj : FPath)
    (hd : Option FPath) (s : FPath)
    (hf : find_helper_file ctx (fs.applyEvents
        [Event.mkdirs run, Event.mkdirs traj,
         Event.writeFile (traj ++ ["01_submit_rerun.py"]) (submit_contents (basename run))])
        ("script_rerun.sh") hd = Except.ok s) :
    prepare_and_submit_rerun ctx fs src run traj hd false false =
      (Event.mkdirs run :: Event.mkdirs traj ::
        Event.writeFile (traj ++ ["01_submit_rerun.py"]) (submit_contents (basename run)) ::
        Event.copyFile s (traj ++ ["script_rerun.sh"]) ::
        Event.chmodExec (traj ++ ["script_rerun.sh"]) ::
        Event.submit traj :: sbatch_report ctx.sbatch traj,
       Except.ok ()) := by
  simp only [prepare_and_submit_rerun, hf]
  simp

theorem prepare_event_cases (ctx : Ctx) (fs : FS) (src run traj : FPath)
    (hd : Option FPath) (dry : Bool) (e : Event)
    (he : e ∈ (prepare_and_submit_rerun ctx fs src run traj hd false dry).1) :
    e = Event.mkdirs run ∨ e = Event.mkdirs traj ∨
    e = Event.writeFile (traj ++ ["01_submit_rerun.py"]) (submit_contents (basename run)) ∨
    (∃ s, e = Event.copyFile s (traj ++ ["script_rerun.sh"])) ∨
    e = Event.chmodExec (traj ++ ["script_rerun.sh"]) ∨
    e = Event.submit traj ∨ (∃ m, e = Event.msg m) := by
  cases hfind : find_helper_file ctx (fs.applyEvents
      [Event.mkdirs run, Event.mkdirs traj,
       Event.writeFile (traj ++ ["01_submit_rerun.py"]) (submit_contents (basename run))])
      ("script_rerun.sh") hd with
  | error m =>
    rw [prepare_eq_of_find_error ctx fs src run traj hd false dry m hfind] at he
    simp only [List.mem_cons, List.not_mem_nil, or_false] at he
    rcases he with h | h | h <;> simp [h]
  | ok s =>
    simp only [prepare_and_submit_rerun, hfind] at he
    cases dry with
    | true =>
      simp only [if_true, if_false, List.append_nil, List.mem_append, List.mem_cons,
        List.not_mem_nil, or_false, Bool.false_eq_true, reduceIte] at he
      rcases he with (h | h | h | h) | h | h <;> simp [h]
    | false =>
      simp only [if_true, if_false, List.append_nil, List.mem_append, List.mem_cons,
        List.not_mem_nil, or_false, Bool.false_eq_true, reduceIte] at he
      rcases he with ((h | h | h | h) | h | h) | h
      · simp [h]
      · simp [h]
      · simp [h]
      · simp [h]
      · simp [h]
      · simp [h]
      · have := sbatch_report_msgs ctx.sbatch traj e h
        simp [this]

theorem writeFile_not_mem_sbatch_report (s : Option SbatchResult) (t p : FPath) (c : String) :
    Event.writeFile p c ∉ sbatch_report s t := by
  intro h
  obtain ⟨m, hm⟩ := sbatch_report_msgs s t _ h
  cases hm

theorem prepare_writeFile_content (ctx : Ctx) (fs : FS) (src run traj : FPath)
    (hd : Option FPath) (cpy dry : Bool) (p : FPath) (c : String)
    (he : Event.writeFile p c ∈ (prepare_and_submit_rerun ctx fs src run traj hd cpy dry).1) :
    c = submit_contents (basename run) := by
  cases hfind : find_helper_file ctx (fs.applyEvents
      [Event.mkdirs run, Event.mkdirs traj,
       Event.writeFile (traj ++ ["01_submit_rerun.py"]) (submit_contents (basename run))])
      ("script_rerun.sh") hd with
  | error m =>
    rw [prepare_eq_of_find_error ctx fs src run traj hd cpy dry m hfind] at he
    simp only [List.mem_cons, List.not_mem_nil, or_false] at he
    rcases he with h | h | h <;> simp_all
  | ok s =>
    simp only [prepare_and_submit_rerun, hfind] at he
    cases dry <;> cases cpy <;>
      simp [writeFile_not_mem_sbatch_report] at he <;> tauto

theorem mkdirs_run_mem_prepare (ctx : Ctx) (fs : FS) (src run traj : FPath)
    (hd : Option FPath) (cpy dry : Bool) :
    Event.mkdirs run ∈ (prepare_and_submit_rerun ctx fs src run traj hd cpy dry).1 := by
  cases hfind : find_helper_file ctx (fs.applyEvents
      [Event.mkdirs run, Event.mkdirs traj,
       Event.writeFile (traj ++ ["01_submit_rerun.py"]) (submit_contents (basename run))])
      ("script_rerun.sh") hd with
  | error m =>
    rw [prepare_eq_of_find_error ctx fs src run traj hd cpy dry m hfind]
    simp
  | ok s =>
    simp only [prepare_and_submit_rerun, hfind]
    cases dry <;> simp

theorem processFolder_event_cases (ctx : Ctx) (fs : FS) (base_folder : FPath)
    (subfolder_name : String) (run_index : Int) (helpers_dir : Option FPath) (dry : Bool)
    (f : String) (e : Event)
    (he : e ∈ processFolder ctx fs base_folder subfolder_name run_index helpers_dir dry f) :
    e = Event.mkdirs ((base_folder ++ [f]) ++ [rerunName subfolder_name run_index]) ∨
    e = Event.mkdirs (base_folder ++ [f]) ∨
    e = Event.writeFile ((base_folder ++ [f]) ++ ["01_submit_rerun.py"])
        (submit_contents (basename ((base_folder ++ [f]) ++ [rerunName subfolder_name run_index]))) ∨
    (∃ s, e = Event.copyFile s ((base_folder ++ [f]) ++ ["script_rerun.sh"])) ∨
    e = Event.chmodExec ((base_folder ++ [f]) ++ ["script_rerun.sh"]) ∨
    e = Event.submit (base_folder ++ [f]) ∨
    e = Event.copyTree ((base_folder ++ [f]) ++ [subfolder_name])
        ((base_folder ++ [f]) ++ [rerunName subfolder_name run_index]) ∨
    (∃ m, e = Event.msg m) := by
  simp only [processFolder] at he
  split at he
  · simp only [List.mem_singleton] at he
    simp [he]
  · split at he
    · simp only [List.mem_singleton] at he
      simp [he]
    · split at he
      · simp only [List.mem_singleton] at he
        simp [he]
      · split at he
        case _ evs u heq =>
          rw [List.mem_append, List.mem_append] at he
          rcases he with (he | he) | he
          · simp only [List.mem_singleton] at he
            simp [he]
          · split at he
            · simp only [List.mem_singleton] at he
              simp [he]
            · split at he
              · simp only [List.mem_singleton] at he
                simp [he]
              · simp only [List.mem_singleton] at he
                simp [he]
          · have h1 : _ = evs := congrArg Prod.fst heq
            rw [← h1] at he
            have := prepare_event_cases _ _ _ _ _ _ _ _ he
            tauto
        case _ evs m heq =>
          rw [List.mem_append, List.mem_append, List.mem_append] at he
          rcases he with ((he | he) | he) | he
          · simp only [List.mem_singleton] at he
            simp [he]
          · split at he
            · simp only [List.mem_singleton] at he
              simp [he]
            · split at he
              · simp only [List.mem_singleton] at he
                simp [he]
              · simp only [List.mem_singleton] at he
                simp [he]
          · have h1 : _ = evs := congrArg Prod.fst heq
            rw [← h1] at he
            have := prepare_event_cases _ _ _ _ _ _ _ _ he
            tauto
          · simp only [List.mem_cons, List.not_mem_nil, or_false] at he
            rcases he with he | he <;> simp [he]

theorem processFolder_dirWrites (ctx : Ctx) (fs : FS) (base_folder : FPath)
    (subfolder_name : String) (run_index : Int) (helpers_dir : Option FPath) (dry : Bool)
    (f : String) (e : Event) (q : FPath)
    (he : e ∈ processFolder ctx fs base_folder subfolder_name run_index helpers_dir dry f)
    (hq : q ∈ e.dirWrites) :
    q = (base_folder ++ [f]) ++ [rerunName subfolder_name run_index] ∨
    q = base_folder ++ [f] := by
  rcases processFolder_event_cases ctx fs base_folder subfolder_name run_index helpers_dir
      dry f e he with h | h | h | ⟨s, h⟩ | h | h | h | ⟨m, h⟩ <;> subst h <;>
    simp [Event.dirWrites] at hq ⊢ <;> tauto

theorem processFolder_fileWrites (ctx : Ctx) (fs : FS) (base_folder : FPath)
    (subfolder_name : String) (run_index : Int) (helpers_dir : Option FPath) (dry : Bool)
    (f : String) (e : Event) (q : FPath)
    (he : e ∈ processFolder ctx fs base_folder subfolder_name run_index helpers_dir dry f)
    (hq : q ∈ e.fileWrites) :
    q = (base_folder ++ [f]) ++ ["01_submit_rerun.py"] ∨
    q = (base_folder ++ [f]) ++ ["script_rerun.sh"] := by
  rcases processFolder_event_cases ctx fs base_folder subfolder_name run_index helpers_dir
      dry f e he with h | h | h | ⟨s, h⟩ | h | h | h | ⟨m, h⟩ <;> subst h <;>
    simp [Event.fileWrites] at hq ⊢ <;> tauto

theorem processFolder_preserves (ctx : Ctx) (fs : FS) (base_folder : FPath)
    (subfolder_name : String) (run_index : Int) (helpers_dir : Option FPath) (dry : Bool)
    (f : String) (hf : fs.isDir (base_folder ++ [f]) = true) :
    DecisionsEq fs
      (fs.applyEvents (processFolder ctx fs base_folder subfolder_name run_index helpers_dir dry f))
      base_folder subfolder_name := by
  refine ⟨congrFun (listdir_applyEvents fs _) base_folder, ?_, ?_, ?_, ?_, ?_⟩
  · intro d
    by_cases hdf : d = f
    · subst hdf
      rw [hf, isDir_applyEvents_mono fs _ _ hf]
    · refine isDir_applyEvents_ne fs _ _ (fun e he hq => ?_)
      rcases processFolder_dirWrites ctx fs base_folder subfolder_name run_index helpers_dir
          dry f e _ he hq with h | h
      · rw [List.append_assoc] at h
        exact append_len_ne (by simp) h
      · exact hdf (append_singleton_inj h)
  · intro g
    refine isDir_applyEvents_ne fs _ _ (fun e he hq => ?_)
    rcases processFolder_dirWrites ctx fs base_folder subfolder_name run_index helpers_dir
        dry f e _ he hq with h | h
    · rw [List.append_assoc, List.append_assoc] at h
      exact absurd (append_pair_inj h).2.symm (rerunName_ne_sub subfolder_name run_index)
    · rw [List.append_assoc] at h
      exact append_len_ne (by simp) h
  · intro g
    refine isFile_applyEvents_ne fs _ _ (fun e he hq => ?_)
    rcases processFolder_fileWrites ctx fs base_folder subfolder_name run_index helpers_dir
        dry f e _ he hq with h | h <;>
      simp only [List.append_assoc] at h <;> exact append_len_ne (by simp) h
  · intro g
    refine readOk_applyEvents_ne fs _ _ (fun e he hq => ?_)
    rcases processFolder_fileWrites ctx fs base_folder subfolder_name run_index helpers_dir
        dry f e _ he hq with h | h <;>
      simp only [List.append_assoc] at h <;> exact append_len_ne (by simp) h
  · intro g
    refine lines_applyEvents_ne fs _ _ (fun e he hq => ?_)
    rcases processFolder_fileWrites ctx fs base_folder subfolder_name run_index helpers_dir
        dry f e _ he hq with h | h <;>
      simp only [List.append_assoc] at h <;> exact append_len_ne (by simp) h

theorem processFolder_missingSub (ctx : Ctx) (fs : FS) (base_folder : FPath)
    (subfolder_name : String) (run_index : Int) (helpers_dir : Option FPath) (dry : Bool)
    (f : String) (h1 : fs.isDir ((base_folder ++ [f]) ++ [subfolder_name]) = false) :
    processFolder ctx fs base_folder subfolder_name run_index helpers_dir dry f =
      [Event.msg ("Skipping " ++ f ++ ": missing subfolder \x27" ++ subfolder_name ++ "\x27.")] := by
  simp only [List.append_assoc, List.cons_append, List.nil_append] at h1
  simp [processFolder, h1]

theorem processFolder_missingOutcar (ctx : Ctx) (fs : FS) (base_folder : FPath)
    (subfolder_name : String) (run_index : Int) (helpers_dir : Option FPath) (dry : Bool)
    (f : String) (h1 : fs.isDir ((base_folder ++ [f]) ++ [subfolder_name]) = true)
    (h2 : fs.isFile (((base_folder ++ [f]) ++ [subfolder_name]) ++ ["OUTCAR"]) = false) :
    processFolder ctx fs base_folder subfolder_name run_index helpers_dir dry f =
      [Event.msg ("Skipping " ++ f ++ ": missing OUTCAR in \x27" ++ subfolder_name ++ "\x27.")] := by
  simp only [List.append_assoc, List.cons_append, List.nil_append] at h1 h2
  simp [processFolder, h1, h2]

theorem processFolder_converged_eq (ctx : Ctx) (fs : FS) (base_folder : FPath)
    (subfolder_name : String) (run_index : Int) (helpers_dir : Option FPath) (dry : Bool)
    (f : String) (h1 : fs.isDir ((base_folder ++ [f]) ++ [subfolder_name]) = true)
    (h2 : fs.isFile (((base_folder ++ [f]) ++ [subfolder_name]) ++ ["OUTCAR"]) = true)
    (h3 : is_converged fs (((base_folder ++ [f]) ++ [subfolder_name]) ++ ["OUTCAR"]) = true) :
    processFolder ctx fs base_folder subfolder_name run_index helpers_dir dry f =
      [Event.msg ("Converged: " ++ f ++ "/" ++ subfolder_name)] := by
  simp only [List.append_assoc, List.cons_append, List.nil_append] at h1 h2 h3
  simp [processFolder, h1, h2, h3]

theorem applyEvents_singleton (fs : FS) (e : Event) : fs.applyEvents [e] = fs.applyEvent e := rfl

theorem applyEvent_msg (fs : FS) (s : String) : fs.applyEvent (Event.msg s) = fs := rfl

theorem processFolder_rerun_reuse_ok (ctx : Ctx) (fs : FS) (base_folder : FPath)
    (subfolder_name : String) (run_index : Int) (helpers_dir : Option FPath) (dry : Bool)
    (f : String) (h1 : fs.isDir ((base_folder ++ [f]) ++ [subfolder_name]) = true)
    (h2 : fs.isFile (((base_folder ++ [f]) ++ [subfolder_name]) ++ ["OUTCAR"]) = true)
    (h3 : is_converged fs (((base_folder ++ [f]) ++ [subfolder_name]) ++ ["OUTCAR"]) = false)
    (hex : fs.exists_ ((base_folder ++ [f]) ++ [rerunName subfolder_name run_index]) = true)
    (evs : List Event) (u : Unit)
    (hp : prepare_and_submit_rerun ctx fs ((base_folder ++ [f]) ++ [subfolder_name])
        ((base_folder ++ [f]) ++ [rerunName subfolder_name run_index]) (base_folder ++ [f])
        helpers_dir false dry = (evs, Except.ok u)) :
    processFolder ctx fs base_folder subfolder_name run_index helpers_dir dry f =
      Event.msg ("Not converged: " ++ f ++ "/" ++ subfolder_name ++ " -> creating rerun folder") ::
      Event.msg ("Rerun folder already exists: " ++ f ++ "/" ++
        rerunName subfolder_name run_index ++ ". Will reuse it.") :: evs := by
  simp only [List.append_assoc, List.cons_append, List.nil_append] at h1 h2 h3 hex hp ⊢
  simp only [processFolder, h1, h2, h3, hex, Bool.not_true, Bool.not_false, Bool.false_eq_true,
    if_false, if_true, applyEvents_singleton, applyEvents_cons, applyEvents_nil,
    applyEvents_msg, applyEvent_msg, List.append_assoc, List.cons_append, List.nil_append,
    reduceIte]
  rw [hp]

theorem processFolder_rerun_reuse_err (ctx : Ctx) (fs : FS) (base_folder : FPath)
    (subfolder_name : String) (run_index : Int) (helpers_dir : Option FPath) (dry : Bool)
    (f : String) (h1 : fs.isDir ((base_folder ++ [f]) ++ [subfolder_name]) = true)
    (h2 : fs.isFile (((base_folder ++ [f]) ++ [subfolder_name]) ++ ["OUTCAR"]) = true)
    (h3 : is_converged fs (((base_folder ++ [f]) ++ [subfolder_name]) ++ ["OUTCAR"]) = false)
    (hex : fs.exists_ ((base_folder ++ [f]) ++ [rerunName subfolder_name run_index]) = true)
    (evs : List Event) (m : String)
    (hp : prepare_and_submit_rerun ctx fs ((base_folder ++ [f]) ++ [subfolder_name])
        ((base_folder ++ [f]) ++ [rerunName subfolder_name run_index]) (base_folder ++ [f])
        helpers_dir false dry = (evs, Except.error m)) :
    processFolder ctx fs base_folder subfolder_name run_index helpers_dir dry f =
      Event.msg ("Not converged: " ++ f ++ "/" ++ subfolder_name ++ " -> creating rerun folder") ::
      Event.msg ("Rerun folder already exists: " ++ f ++ "/" ++
        rerunName subfolder_name run_index ++ ". Will reuse it.") :: (evs ++
      [Event.msg m,
       Event.msg ("Skipping submission for " ++ f ++ "/" ++ rerunName subfolder_name run_index ++
         " due to missing helper file(s).")]) := by
  simp only [List.append_assoc, List.cons_append, List.nil_append] at h1 h2 h3 hex hp ⊢
  simp only [processFolder, h1, h2, h3, hex, Bool.not_true, Bool.not_false, Bool.false_eq_true,
    if_false, if_true, applyEvents_singleton, applyEvents_cons, applyEvents_nil,
    applyEvents_msg, applyEvent_msg, List.append_assoc, List.cons_append, List.nil_append,
    reduceIte]
  rw [hp]

theorem processFolder_rerun_fresh_dry (ctx : Ctx) (fs : FS) (base_folder : FPath)
    (subfolder_name : String) (run_index : Int) (helpers_dir : Option FPath)
    (f : String) (h1 : fs.isDir ((base_folder ++ [f]) ++ [subfolder_name]) = true)
    (h2 : fs.isFile (((base_folder ++ [f]) ++ [subfolder_name]) ++ ["OUTCAR"]) = true)
    (h3 : is_converged fs (((base_folder ++ [f]) ++ [subfolder_name]) ++ ["OUTCAR"]) = false)
    (hex : fs.exists_ ((base_folder ++ [f]) ++ [rerunName subfolder_name run_index]) = false)
    (evs : List Event) (res : Except String Unit)
    (hp : prepare_and_submit_rerun ctx fs ((base_folder ++ [f]) ++ [subfolder_name])
        ((base_folder ++ [f]) ++ [rerunName subfolder_name run_index]) (base_folder ++ [f])
        helpers_dir false true = (evs, res)) :
    processFolder ctx fs base_folder subfolder_name run_index helpers_dir true f =
      Event.msg ("Not converged: " ++ f ++ "/" ++ subfolder_name ++ " -> creating rerun folder") ::
      Event.msg ("[DRY-RUN] Would copy folder: " ++
        pathStr ((base_folder ++ [f]) ++ [subfolder_name]) ++ " -> " ++
        pathStr ((base_folder ++ [f]) ++ [rerunName subfolder_name run_index])) ::
      (evs ++
        (match res with
         | Except.ok _ => []
         | Except.error m =>
           [Event.msg m,
            Event.msg ("Skipping submission for " ++ f ++ "/" ++
              rerunName subfolder_name run_index ++ " due to missing helper file(s).")])) := by
  simp only [List.append_assoc, List.cons_append, List.nil_append] at h1 h2 h3 hex hp ⊢
  simp only [processFolder, h1, h2, h3, hex, Bool.not_true, Bool.not_false, Bool.false_eq_true,
    if_false, if_true, applyEvents_singleton, applyEvents_cons, applyEvents_nil,
    applyEvents_msg, applyEvent_msg, List.append_assoc, List.cons_append, List.nil_append,
    reduceIte]
  rw [hp]
  cases res <;> simp

theorem processFolder_rerun_fresh_live (ctx : Ctx) (fs : FS) (base_folder : FPath)
    (subfolder_name : String) (run_index : Int) (helpers_dir : Option FPath)
    (f : String) (h1 : fs.isDir ((base_folder ++ [f]) ++ [subfolder_name]) = true)
    (h2 : fs.isFile (((base_folder ++ [f]) ++ [subfolder_name]) ++ ["OUTCAR"]) = true)
    (h3 : is_converged fs (((base_folder ++ [f]) ++ [subfolder_name]) ++ ["OUTCAR"]) = false)
    (hex : fs.exists_ ((base_folder ++ [f]) ++ [rerunName subfolder_name run_index]) = false)
    (evs : List Event) (res : Except String Unit)
    (hp : prepare_and_submit_rerun ctx
        (fs.applyEvent (Event.copyTree ((base_folder ++ [f]) ++ [subfolder_name])
          ((base_folder ++ [f]) ++ [rerunName subfolder_name run_index])))
        ((base_folder ++ [f]) ++ [subfolder_name])
        ((base_folder ++ [f]) ++ [rerunName subfolder_name run_index]) (base_folder ++ [f])
        helpers_dir false false = (evs, res)) :
    processFolder ctx fs base_folder subfolder_name run_index helpers_dir false f =
      Event.msg ("Not converged: " ++ f ++ "/" ++ subfolder_name ++ " -> creating rerun folder") ::
      Event.copyTree ((base_folder ++ [f]) ++ [subfolder_name])
        ((base_folder ++ [f]) ++ [rerunName subfolder_name run_index]) ::
      (evs ++
        (match res with
         | Except.ok _ => []
         | Except.error m =>
           [Event.msg m,
            Event.msg ("Skipping submission for " ++ f ++ "/" ++
              rerunName subfolder_name run_index ++ " due to missing helper file(s).")])) := by
  simp only [List.append_assoc, List.cons_append, List.nil_append] at h1 h2 h3 hex hp ⊢
  simp only [processFolder, h1, h2, h3, hex, Bool.not_true, Bool.not_false, Bool.false_eq_true,
    if_false, if_true, applyEvents_singleton, applyEvents_cons, applyEvents_nil,
    applyEvents_msg, applyEvent_msg, List.append_assoc, List.cons_append, List.nil_append,
    reduceIte]
  rw [hp]
  cases res <;> simp

theorem classify_missingSub_iff (fs : FS) (base_folder : FPath) (subfolder_name f : String) :
    classify fs base_folder subfolder_name f = FolderClass.missingSub ↔
      fs.isDir ((base_folder ++ [f]) ++ [subfolder_name]) = false := by
  unfold classify
  split_ifs with a b c <;> simp_all

theorem classify_missingOutcar_iff (fs : FS) (base_folder : FPath) (subfolder_name f : String) :
    classify fs base_folder subfolder_name f = FolderClass.missingOutcar ↔
      (fs.isDir ((base_folder ++ [f]) ++ [subfolder_name]) = true ∧
       fs.isFile (((base_folder ++ [f]) ++ [subfolder_name]) ++ ["OUTCAR"]) = false) := by
  unfold classify
  split_ifs with a b c <;> simp_all

theorem classify_convergedF_iff (fs : FS) (base_folder : FPath) (subfolder_name f : String) :
    classify fs base_folder subfolder_name f = FolderClass.convergedF ↔
      (fs.isDir ((base_folder ++ [f]) ++ [subfolder_name]) = true ∧
       fs.isFile (((base_folder ++ [f]) ++ [subfolder_name]) ++ ["OUTCAR"]) = true ∧
       is_converged fs (((base_folder ++ [f]) ++ [subfolder_name]) ++ ["OUTCAR"]) = true) := by
  unfold classify
  split_ifs with a b c <;> simp_all

theorem classify_rerunF_iff (fs : FS) (base_folder : FPath) (subfolder_name f : String) :
    classify fs base_folder subfolder_name f = FolderClass.rerunF ↔
      (fs.isDir ((base_folder ++ [f]) ++ [subfolder_name]) = true ∧
       fs.isFile (((base_folder ++ [f]) ++ [subfolder_name]) ++ ["OUTCAR"]) = true ∧
       is_converged fs (((base_folder ++ [f]) ++ [subfolder_name]) ++ ["OUTCAR"]) = false) := by
  unfold classify
  split_ifs with a b c <;> simp_all

theorem processFolder_rerun_stages (ctx : Ctx) (fs : FS) (base_folder : FPath)
    (subfolder_name : String) (run_index : Int) (helpers_dir : Option FPath) (dry : Bool)
    (f : String) (h1 : fs.isDir ((base_folder ++ [f]) ++ [subfolder_name]) = true)
    (h2 : fs.isFile (((base_folder ++ [f]) ++ [subfolder_name]) ++ ["OUTCAR"]) = true)
    (h3 : is_converged fs (((base_folder ++ [f]) ++ [subfolder_name]) ++ ["OUTCAR"]) = false) :
    Event.mkdirs ((base_folder ++ [f]) ++ [rerunName subfolder_name run_index]) ∈
      processFolder ctx fs base_folder subfolder_name run_index helpers_dir dry f := by
  rcases Bool.eq_false_or_eq_true
      (fs.exists_ ((base_folder ++ [f]) ++ [rerunName subfolder_name run_index])) with hex | hex
  · rcases hp : prepare_and_submit_rerun ctx fs ((base_folder ++ [f]) ++ [subfolder_name])
        ((base_folder ++ [f]) ++ [rerunName subfolder_name run_index]) (base_folder ++ [f])
        helpers_dir false dry with ⟨evs, res⟩
    have hm : _ = evs := congrArg Prod.fst hp
    have hmem : Event.mkdirs ((base_folder ++ [f]) ++ [rerunName subfolder_name run_index]) ∈
        evs := hm ▸ mkdirs_run_mem_prepare ctx fs _ _ _ helpers_dir false dry
    cases res with
    | ok u =>
      rw [processFolder_rerun_reuse_ok ctx fs base_folder subfolder_name run_index helpers_dir
        dry f h1 h2 h3 hex evs u hp]
      exact List.mem_cons_of_mem _ (List.mem_cons_of_mem _ hmem)
    | error m =>
      rw [processFolder_rerun_reuse_err ctx fs base_folder subfolder_name run_index helpers_dir
        dry f h1 h2 h3 hex evs m hp]
      exact List.mem_cons_of_mem _ (List.mem_cons_of_mem _ (List.mem_append_left _ hmem))
  · cases dry with
    | true =>
      rcases hp : prepare_and_submit_rerun ctx fs ((base_folder ++ [f]) ++ [subfolder_name])
          ((base_folder ++ [f]) ++ [rerunName subfolder_name run_index]) (base_folder ++ [f])
          helpers_dir false true with ⟨evs, res⟩
      have hm : _ = evs := congrArg Prod.fst hp
      have hmem : Event.mkdirs ((base_folder ++ [f]) ++ [rerunName subfolder_name run_index]) ∈
          evs := hm ▸ mkdirs_run_mem_prepare ctx fs _ _ _ helpers_dir false true
      rw [processFolder_rerun_fresh_dry ctx fs base_folder subfolder_name run_index helpers_dir
        f h1 h2 h3 hex evs res hp]
      exact List.mem_cons_of_mem _ (List.mem_cons_of_mem _ (List.mem_append_left _ hmem))
    | false =>
      rcases hp : prepare_and_submit_rerun ctx
          (fs.applyEvent (Event.copyTree ((base_folder ++ [f]) ++ [subfolder_name])
            ((base_folder ++ [f]) ++ [rerunName subfolder_name run_index])))
          ((base_folder ++ [f]) ++ [subfolder_name])
          ((base_folder ++ [f]) ++ [rerunName subfolder_name run_index]) (base_folder ++ [f])
          helpers_dir false false with ⟨evs, res⟩
      have hm : _ = evs := congrArg Prod.fst hp
      have hmem : Event.mkdirs ((base_folder ++ [f]) ++ [rerunName subfolder_name run_index]) ∈
          evs := hm ▸ mkdirs_run_mem_prepare ctx _ _ _ _ helpers_dir false false
      rw [processFolder_rerun_fresh_live ctx fs base_folder subfolder_name run_index helpers_dir
        f h1 h2 h3 hex evs res hp]
      exact List.mem_cons_of_mem _ (List.mem_cons_of_mem _ (List.mem_append_left _ hmem))

theorem processList_nil (ctx : Ctx) (base_folder : FPath) (subfolder_name : String)
    (run_index : Int) (helpers_dir : Option FPath) (dry : Bool) (fs : FS) :
    processList ctx base_folder subfolder_name run_index helpers_dir dry fs [] = [] := rfl

theorem processList_cons (ctx : Ctx) (base_folder : FPath) (subfolder_name : String)
    (run_index : Int) (helpers_dir : Option FPath) (dry : Bool) (fs : FS) (f : String)
    (rest : List String) :
    processList ctx base_folder subfolder_name run_index helpers_dir dry fs (f :: rest) =
      processFolder ctx fs base_folder subfolder_name run_index helpers_dir dry f ++
      processList ctx base_folder subfolder_name run_index helpers_dir dry
        (fs.applyEvents (processFolder ctx fs base_folder subfolder_name run_index helpers_dir dry f))
        rest := rfl

theorem mem_trajectoryDirs (fs : FS) (base_folder : FPath) (d : String) :
    d ∈ trajectoryDirs fs base_folder ↔
      (d ∈ fs.listdir base_folder ∧ fs.isDir (base_folder ++ [d]) = true ∧
       startsWithB d ("trajectory_") = true) := by
  rw [trajectoryDirs, (List.perm_insertionSort trajLe _).mem_iff, List.mem_filter,
    Bool.and_eq_true]

theorem processList_run1 (ctx : Ctx) (fs0 : FS) (base_folder : FPath) (subfolder_name : String)
    (run_index : Int) (helpers_dir : Option FPath) (dry : Bool) :
    ∀ (fl : List String) (fs : FS),
      DecisionsEq fs0 fs base_folder subfolder_name →
      (∀ f ∈ fl, fs0.isDir (base_folder ++ [f]) = true) →
      (DecisionsEq fs0
        (fs.applyEvents
          (processList ctx base_folder subfolder_name run_index helpers_dir dry fs fl))
        base_folder subfolder_name ∧
       ∀ f ∈ fl, classify fs0 base_folder subfolder_name f = FolderClass.rerunF →
         (fs.applyEvents
            (processList ctx base_folder subfolder_name run_index helpers_dir dry fs fl)).isDir
           ((base_folder ++ [f]) ++ [rerunName subfolder_name run_index]) = true) := by
  intro fl
  induction fl with
  | nil =>
    intro fs hde hdir
    exact ⟨hde, by simp⟩
  | cons f rest ih =>
    intro fs hde hdir
    rw [processList_cons, applyEvents_append]
    have hdirf : fs.isDir (base_folder ++ [f]) = true := by
      rw [hde.2.1 f]
      exact hdir f (List.mem_cons_self f rest)
    have hpres := processFolder_preserves ctx fs base_folder subfolder_name run_index
      helpers_dir dry f hdirf
    have hde1 : DecisionsEq fs0
        (fs.applyEvents (processFolder ctx fs base_folder subfolder_name run_index helpers_dir dry f))
        base_folder subfolder_name := hde.trans hpres
    obtain ⟨hde2, hstaged⟩ := ih
      (fs.applyEvents (processFolder ctx fs base_folder subfolder_name run_index helpers_dir dry f))
      hde1 (fun g hg => hdir g (List.mem_cons_of_mem f hg))
    refine ⟨hde2, ?_⟩
    intro g hg hcl
    rcases List.mem_cons.mp hg with rfl | hg2
    · have hcls : classify fs base_folder subfolder_name g = FolderClass.rerunF := by
        rw [classify_congr hde g]
        exact hcl
      obtain ⟨h1, h2, h3⟩ := (classify_rerunF_iff fs base_folder subfolder_name g).mp hcls
      have hmem := processFolder_rerun_stages ctx fs base_folder subfolder_name run_index
        helpers_dir dry g h1 h2 h3
      exact isDir_applyEvents_mono _ _ _ (isDir_of_mkdirs_mem fs _ _ hmem)
    · exact hstaged g hg2 hcl

theorem copyTree_not_mem_sbatch_report (s : Option SbatchResult) (t a b : FPath) :
    Event.copyTree a b ∉ sbatch_report s t := by
  intro h
  obtain ⟨m, hm⟩ := sbatch_report_msgs s t _ h
  cases hm

theorem processList_run2 (ctx : Ctx) (fs0 : FS) (base_folder : FPath) (subfolder_name : String)
    (run_index : Int) (helpers_dir : Option FPath) :
    ∀ (fl : List String) (fs : FS),
      DecisionsEq fs0 fs base_folder subfolder_name →
      (∀ f ∈ fl, fs0.isDir (base_folder ++ [f]) = true) →
      (∀ f ∈ fl, classify fs0 base_folder subfolder_name f = FolderClass.rerunF →
        fs.exists_ ((base_folder ++ [f]) ++ [rerunName subfolder_name run_index]) = true) →
      helperFound ctx fs helpers_dir = true →
      ((∀ a b, Event.copyTree a b ∉
          processList ctx base_folder subfolder_name run_index helpers_dir false fs fl) ∧
       (∀ f ∈ fl, classify fs0 base_folder subfolder_name f = FolderClass.rerunF →
         Event.writeFile ((base_folder ++ [f]) ++ ["01_submit_rerun.py"])
             (submit_contents (rerunName subfolder_name run_index)) ∈
           processList ctx base_folder subfolder_name run_index helpers_dir false fs fl ∧
         Event.submit (base_folder ++ [f]) ∈
           processList ctx base_folder subfolder_name run_index helpers_dir false fs fl ∧
         Event.msg ("Rerun folder already exists: " ++ f ++ "/" ++
             rerunName subfolder_name run_index ++ ". Will reuse it.") ∈
           processList ctx base_folder subfolder_name run_index helpers_dir false fs fl)) := by
  intro fl
  induction fl with
  | nil =>
    intro fs _ _ _ _
    exact ⟨fun a b => by simp [processList_nil], fun f hf => absurd hf (List.not_mem_nil f)⟩
  | cons f rest ih =>
    intro fs hde hdir hstaged hhf
    rw [processList_cons]
    have hdirf : fs.isDir (base_folder ++ [f]) = true := by
      rw [hde.2.1 f]
      exact hdir f (List.mem_cons_self f rest)
    have hpres := processFolder_preserves ctx fs base_folder subfolder_name run_index
      helpers_dir false f hdirf
    have hde1 : DecisionsEq fs0
        (fs.applyEvents (processFolder ctx fs base_folder subfolder_name run_index helpers_dir false f))
        base_folder subfolder_name := hde.trans hpres
    obtain ⟨ihA, ihB⟩ := ih
      (fs.applyEvents (processFolder ctx fs base_folder subfolder_name run_index helpers_dir false f))
      hde1 (fun g hg => hdir g (List.mem_cons_of_mem f hg))
      (fun g hg hcl => exists_applyEvents_mono _ _ _ (hstaged g (List.mem_cons_of_mem f hg) hcl))
      (helperFound_applyEvents_mono ctx fs helpers_dir _ hhf)
    have headFacts :
        (∀ a b, Event.copyTree a b ∉
          processFolder ctx fs base_folder subfolder_name run_index helpers_dir false f) ∧
        (classify fs0 base_folder subfolder_name f = FolderClass.rerunF →
          Event.writeFile ((base_folder ++ [f]) ++ ["01_submit_rerun.py"])
              (submit_contents (rerunName subfolder_name run_index)) ∈
            processFolder ctx fs base_folder subfolder_name run_index helpers_dir false f ∧
          Event.submit (base_folder ++ [f]) ∈
            processFolder ctx fs base_folder subfolder_name run_index helpers_dir false f ∧
          Event.msg ("Rerun folder already exists: " ++ f ++ "/" ++
              rerunName subfolder_name run_index ++ ". Will reuse it.") ∈
            processFolder ctx fs base_folder subfolder_name run_index helpers_dir false f) := by
      have hcC : classify fs base_folder subfolder_name f =
          classify fs0 base_folder subfolder_name f := classify_congr hde f
      cases hclass : classify fs0 base_folder subfolder_name f with
      | missingSub =>
        have hcond := (classify_missingSub_iff fs base_folder subfolder_name f).mp
          (hcC.trans hclass)
        rw [processFolder_missingSub ctx fs base_folder subfolder_name run_index helpers_dir
          false f hcond]
        exact ⟨fun a b => by simp, fun hcl => by simp [hclass] at hcl⟩
      | missingOutcar =>
        obtain ⟨hc1, hc2⟩ := (classify_missingOutcar_iff fs base_folder subfolder_name f).mp
          (hcC.trans hclass)
        rw [processFolder_missingOutcar ctx fs base_folder subfolder_name run_index helpers_dir
          false f hc1 hc2]
        exact ⟨fun a b => by simp, fun hcl => by simp [hclass] at hcl⟩
      | convergedF =>
        obtain ⟨hc1, hc2, hc3⟩ := (classify_convergedF_iff fs base_folder subfolder_name f).mp
          (hcC.trans hclass)
        rw [processFolder_converged_eq ctx fs base_folder subfolder_name run_index helpers_dir
          false f hc1 hc2 hc3]
        exact ⟨fun a b => by simp, fun hcl => by simp [hclass] at hcl⟩
      | rerunF =>
        obtain ⟨hc1, hc2, hc3⟩ := (classify_rerunF_iff fs base_folder subfolder_name f).mp
          (hcC.trans hclass)
        have hex := hstaged f (List.mem_cons_self f rest) hclass
        have hhf2 : helperFound ctx (fs.applyEvents
            [Event.mkdirs ((base_folder ++ [f]) ++ [rerunName subfolder_name run_index]),
             Event.mkdirs (base_folder ++ [f]),
             Event.writeFile ((base_folder ++ [f]) ++ ["01_submit_rerun.py"])
               (submit_contents (basename ((base_folder ++ [f]) ++ [rerunName subfolder_name run_index])))])
            helpers_dir = true := helperFound_applyEvents_mono ctx fs helpers_dir _ hhf
        obtain ⟨s, hfind⟩ := find_ok_of_helperFound ctx _ helpers_dir hhf2
        have hp := prepare_eq_of_find_ok_live ctx fs ((base_folder ++ [f]) ++ [subfolder_name])
          ((base_folder ++ [f]) ++ [rerunName subfolder_name run_index]) (base_folder ++ [f])
          helpers_dir s hfind
        rw [processFolder_rerun_reuse_ok ctx fs base_folder subfolder_name run_index helpers_dir
          false f hc1 hc2 hc3 hex _ () hp]
        rw [basename_concat]
        constructor
        · intro a b hmem
          simp only [List.mem_cons] at hmem
          rcases hmem with h | h | h | h | h | h | h | h | h
          · cases h
          · cases h
          · cases h
          · cases h
          · cases h
          · cases h
          · cases h
          · cases h
          · exact copyTree_not_mem_sbatch_report ctx.sbatch _ a b h
        · intro _
          refine ⟨?_, ?_, ?_⟩ <;> simp
    refine ⟨?_, ?_⟩
    · intro a b hmem
      rcases List.mem_append.mp hmem with h | h
      · exact headFacts.1 a b h
      · exact ihA a b h
    · intro g hg hcl
      rcases List.mem_cons.mp hg with rfl | hg2
      · obtain ⟨m1, m2, m3⟩ := headFacts.2 hcl
        exact ⟨List.mem_append_left _ m1, List.mem_append_left _ m2, List.mem_append_left _ m3⟩
      · obtain ⟨m1, m2, m3⟩ := ihB g hg2 hcl
        exact ⟨List.mem_append_right _ m1, List.mem_append_right _ m2, List.mem_append_right _ m3⟩

/-- C3: invoking the batch processor twice with identical arguments (live mode,
helper script locatable) and no external state change performs no recursive
copy in the second run; instead every non-converged trajectory is reported as
reusing its existing rerun directory, while the second run still regenerates
the entry-point script and re-attempts the scheduler submission for each such
trajectory. -/
theorem C3_second_run_idempotence (ctx : Ctx) (fs : FS) (base_folder : FPath)
    (subfolder_name : String) (run_index : Int) (helpers_dir : Option FPath)
    (hHelper : helperFound ctx fs helpers_dir = true) :
    (∀ a b, Event.copyTree a b ∉
        process ctx
          (fs.applyEvents (process ctx fs base_folder subfolder_name run_index helpers_dir false))
          base_folder subfolder_name run_index helpers_dir false) ∧
    (∀ f ∈ trajectoryDirs fs base_folder,
        classify fs base_folder subfolder_name f = FolderClass.rerunF →
          Event.writeFile ((base_folder ++ [f]) ++ ["01_submit_rerun.py"])
              (submit_contents (rerunName subfolder_name run_index)) ∈
            process ctx
              (fs.applyEvents (process ctx fs base_folder subfolder_name run_index helpers_dir false))
              base_folder subfolder_name run_index helpers_dir false ∧
          Event.submit (base_folder ++ [f]) ∈
            process ctx
              (fs.applyEvents (process ctx fs base_folder subfolder_name run_index helpers_dir false))
              base_folder subfolder_name run_index helpers_dir false ∧
          Event.msg ("Rerun folder already exists: " ++ f ++ "/" ++
              rerunName subfolder_name run_index ++ ". Will reuse it.") ∈
            process ctx
              (fs.applyEvents (process ctx fs base_folder subfolder_name run_index helpers_dir false))
              base_folder subfolder_name run_index helpers_dir false) := by
  have hdir0 : ∀ f ∈ trajectoryDirs fs base_folder, fs.isDir (base_folder ++ [f]) = true :=
    fun f hf => ((mem_trajectoryDirs fs base_folder f).mp hf).2.1
  obtain ⟨hde1, hstaged1⟩ := processList_run1 ctx fs base_folder subfolder_name run_index
    helpers_dir false (trajectoryDirs fs base_folder) fs
    (DecisionsEq.refl fs base_folder subfolder_name) hdir0
  simp only [process]
  rw [trajectoryDirs_congr hde1]
  exact processList_run2 ctx fs base_folder subfolder_name run_index helpers_dir
    (trajectoryDirs fs base_folder)
    (fs.applyEvents
      (processList ctx base_folder subfolder_name run_index helpers_dir false fs
        (trajectoryDirs fs base_folder)))
    hde1 hdir0
    (fun f hf hcl => by
      unfold FS.exists_
      rw [hstaged1 f hf hcl]
      simp)
    (helperFound_applyEvents_mono ctx fs helpers_dir _ hHelper)

/-- C7: for a trajectory whose output artifact the convergence check reports as
converged, the loop body emits exactly one diagnostic message stating
convergence: no directory is created, nothing is copied or written, no
submission is attempted, the filesystem state is unchanged, and processing
continues with the next trajectory. -/
theorem C7_converged_no_effect (ctx : Ctx) (fs : FS) (base_folder : FPath)
    (subfolder_name : String) (run_index : Int) (helpers_dir : Option FPath) (dry : Bool)
    (f : String) (rest : List String)
    (h1 : fs.isDir ((base_folder ++ [f]) ++ [subfolder_name]) = true)
    (h2 : fs.isFile (((base_folder ++ [f]) ++ [subfolder_name]) ++ ["OUTCAR"]) = true)
    (h3 : is_converged fs (((base_folder ++ [f]) ++ [subfolder_name]) ++ ["OUTCAR"]) = true) :
    processFolder ctx fs base_folder subfolder_name run_index helpers_dir dry f =
      [Event.msg ("Converged: " ++ f ++ "/" ++ subfolder_name)] ∧
    fs.applyEvents
      (processFolder ctx fs base_folder subfolder_name run_index helpers_dir dry f) = fs ∧
    processList ctx base_folder subfolder_name run_index helpers_dir dry fs (f :: rest) =
      Event.msg ("Converged: " ++ f ++ "/" ++ subfolder_name) ::
        processList ctx base_folder subfolder_name run_index helpers_dir dry fs rest := by
  have hs := processFolder_converged_eq ctx fs base_folder subfolder_name run_index
    helpers_dir dry f h1 h2 h3
  refine ⟨hs, by rw [hs]; rfl, ?_⟩
  rw [processList_cons, hs]
  rfl

theorem any_congr_mem {α : Type} (l : List α) (p q : α → Bool)
    (h : ∀ a ∈ l, p a = q a) : l.any p = l.any q := by
  induction l with
  | nil => rfl
  | cons a l ih =>
    simp only [List.any_cons, h a (List.mem_cons_self a l),
      ih (fun b hb => h b (List.mem_cons_of_mem a hb))]

theorem helper_candidates_shape (ctx : Ctx) (n : String) (helpers_dir : Option FPath)
    (c : FPath) (hc : c ∈ helper_candidates ctx n helpers_dir) : ∃ X, c = X ++ [n] := by
  unfold helper_candidates at hc
  rcases helpers_dir with _ | hdp
  · simp only [List.nil_append, List.mem_cons, List.not_mem_nil, or_false] at hc
    rcases hc with h | h <;> exact ⟨_, h⟩
  · by_cases he : hdp.isEmpty <;>
      simp only [he, if_true, if_false, List.nil_append, List.cons_append, List.mem_cons,
        List.not_mem_nil, or_false, Bool.false_eq_true, reduceIte] at hc
    · rcases hc with h | h <;> exact ⟨_, h⟩
    · rcases hc with h | h | h <;> exact ⟨_, h⟩

theorem helperFound_prefix_stable (ctx : Ctx) (fs : FS) (helpers_dir : Option FPath)
    (run traj : FPath) (c : String) :
    helperFound ctx (fs.applyEvents
      [Event.mkdirs run, Event.mkdirs traj,
       Event.writeFile (traj ++ ["01_submit_rerun.py"]) c]) helpers_dir =
    helperFound ctx fs helpers_dir := by
  unfold helperFound
  refine any_congr_mem _ _ _ (fun cand hcand => ?_)
  obtain ⟨X, hX⟩ := helper_candidates_shape ctx ("script_rerun.sh") helpers_dir cand hcand
  refine isFile_applyEvents_ne fs _ _ (fun e he hq => ?_)
  simp only [List.mem_cons, List.not_mem_nil, or_false] at he
  rcases he with rfl | rfl | rfl <;> simp [Event.fileWrites] at hq
  rw [hq] at hX
  exact concat_ne_of_last_ne (by decide) hX

/-- C6: when the helper locator cannot find the scheduler-submission script,
the batch processor prints the locator error followed by a skip diagnostic for
that trajectory, attempts no submission for it, and processing continues with
the next trajectory directory; the missing helper never aborts the batch. -/
theorem C6_missing_helper_skips (ctx : Ctx) (fs : FS) (base_folder : FPath)
    (subfolder_name : String) (run_index : Int) (helpers_dir : Option FPath) (dry : Bool)
    (f : String) (rest : List String)
    (h1 : fs.isDir ((base_folder ++ [f]) ++ [subfolder_name]) = true)
    (h2 : fs.isFile (((base_folder ++ [f]) ++ [subfolder_name]) ++ ["OUTCAR"]) = true)
    (h3 : is_converged fs (((base_folder ++ [f]) ++ [subfolder_name]) ++ ["OUTCAR"]) = false)
    (hhf : helperFound ctx fs helpers_dir = false) :
    Event.msg ("Could not find required file: script_rerun.sh") ∈
      processFolder ctx fs base_folder subfolder_name run_index helpers_dir dry f ∧
    Event.msg ("Skipping submission for " ++ f ++ "/" ++ rerunName subfolder_name run_index ++
        " due to missing helper file(s).") ∈
      processFolder ctx fs base_folder subfolder_name run_index helpers_dir dry f ∧
    (∀ q, Event.submit q ∉
      processFolder ctx fs base_folder subfolder_name run_index helpers_dir dry f) ∧
    processList ctx base_folder subfolder_name run_index helpers_dir dry fs (f :: rest) =
      processFolder ctx fs base_folder subfolder_name run_index helpers_dir dry f ++
      processList ctx base_folder subfolder_name run_index helpers_dir dry
        (fs.applyEvents
          (processFolder ctx fs base_folder subfolder_name run_index helpers_dir dry f)) rest := by
  refine ?_
  rcases Bool.eq_false_or_eq_true
      (fs.exists_ ((base_folder ++ [f]) ++ [rerunName subfolder_name run_index])) with hex | hex
  · -- rerun directory already exists: reuse branch
    have hbf : helperFound ctx (fs.applyEvents
        [Event.mkdirs ((base_folder ++ [f]) ++ [rerunName subfolder_name run_index]),
         Event.mkdirs (base_folder ++ [f]),
         Event.writeFile ((base_folder ++ [f]) ++ ["01_submit_rerun.py"])
           (submit_contents (basename ((base_folder ++ [f]) ++ [rerunName subfolder_name run_index])))])
        helpers_dir = false := by
      rw [helperFound_prefix_stable]
      exact hhf
    have hfind := find_error_of_not_helperFound ctx _ helpers_dir hbf
    have hp := prepare_eq_of_find_error ctx fs ((base_folder ++ [f]) ++ [subfolder_name])
      ((base_folder ++ [f]) ++ [rerunName subfolder_name run_index]) (base_folder ++ [f])
      helpers_dir false dry _ hfind
    have hshape := processFolder_rerun_reuse_err ctx fs base_folder subfolder_name run_index
      helpers_dir dry f h1 h2 h3 hex _ _ hp
    refine ⟨by rw [hshape]; simp, by rw [hshape]; simp, ?_,
      processList_cons ctx base_folder subfolder_name run_index helpers_dir dry fs f rest⟩
    intro q hq
    rw [hshape] at hq
    simp at hq
  · cases dry with
    | true =>
      have hbf : helperFound ctx (fs.applyEvents
          [Event.mkdirs ((base_folder ++ [f]) ++ [rerunName subfolder_name run_index]),
           Event.mkdirs (base_folder ++ [f]),
           Event.writeFile ((base_folder ++ [f]) ++ ["01_submit_rerun.py"])
             (submit_contents (basename ((base_folder ++ [f]) ++ [rerunName subfolder_name run_index])))])
          helpers_dir = false := by
        rw [helperFound_prefix_stable]
        exact hhf
      have hfind := find_error_of_not_helperFound ctx _ helpers_dir hbf
      have hp := prepare_eq_of_find_error ctx fs ((base_folder ++ [f]) ++ [subfolder_name])
        ((base_folder ++ [f]) ++ [rerunName subfolder_name run_index]) (base_folder ++ [f])
        helpers_dir false true _ hfind
      have hshape := processFolder_rerun_fresh_dry ctx fs base_folder subfolder_name run_index
        helpers_dir f h1 h2 h3 hex _ _ hp
      refine ⟨by rw [hshape]; simp, by rw [hshape]; simp, ?_,
        processList_cons ctx base_folder subfolder_name run_index helpers_dir true fs f rest⟩
      intro q hq
      rw [hshape] at hq
      simp at hq
    | false =>
      have hbf : helperFound ctx ((fs.applyEvent
          (Event.copyTree ((base_folder ++ [f]) ++ [subfolder_name])
            ((base_folder ++ [f]) ++ [rerunName subfolder_name run_index]))).applyEvents
          [Event.mkdirs ((base_folder ++ [f]) ++ [rerunName subfolder_name run_index]),
           Event.mkdirs (base_folder ++ [f]),
           Event.writeFile ((base_folder ++ [f]) ++ ["01_submit_rerun.py"])
             (submit_contents (basename ((base_folder ++ [f]) ++ [rerunName subfolder_name run_index])))])
          helpers_dir = false := by
        rw [helperFound_prefix_stable]
        exact hhf
      have hfind := find_error_of_not_helperFound ctx _ helpers_dir hbf
      have hp := prepare_eq_of_find_error ctx
        (fs.applyEvent (Event.copyTree ((base_folder ++ [f]) ++ [subfolder_name])
          ((base_folder ++ [f]) ++ [rerunName subfolder_name run_index])))
        ((base_folder ++ [f]) ++ [subfolder_name])
        ((base_folder ++ [f]) ++ [rerunName subfolder_name run_index]) (base_folder ++ [f])
        helpers_dir false false _ hfind
      have hshape := processFolder_rerun_fresh_live ctx fs base_folder subfolder_name run_index
        helpers_dir f h1 h2 h3 hex _ _ hp
      refine ⟨by rw [hshape]; simp, by rw [hshape]; simp, ?_,
        processList_cons ctx base_folder subfolder_name run_index helpers_dir false fs f rest⟩
      intro q hq
      rw [hshape] at hq
      simp at hq

/-- C9: when the rerun preparer fails with the FileNotFoundError of the helper
locator, the failure is not atomic: the emitted events are exactly the two
directory creations and the write of the freshly generated entry-point script,
all of which happened before the helper lookup, so the resulting state already
has both directories present and the entry script written with the generated
text. -/
theorem C9_failure_not_atomic (ctx : Ctx) (fs : FS) (source_dir run_dir trajectory_dir : FPath)
    (helpers_dir : Option FPath) (copy_to_run_dir dry_run : Bool) (evs : List Event) (m : String)
    (h : prepare_and_submit_rerun ctx fs source_dir run_dir trajectory_dir helpers_dir
        copy_to_run_dir dry_run = (evs, Except.error m)) :
    evs = [Event.mkdirs run_dir, Event.mkdirs trajectory_dir,
           Event.writeFile (trajectory_dir ++ ["01_submit_rerun.py"])
             (submit_contents (basename run_dir))] ∧
    (fs.applyEvents evs).isDir run_dir = true ∧
    (fs.applyEvents evs).isDir trajectory_dir = true ∧
    (fs.applyEvents evs).isFile (trajectory_dir ++ ["01_submit_rerun.py"]) = true ∧
    (fs.applyEvents evs).lines (trajectory_dir ++ ["01_submit_rerun.py"]) =
      splitOnChar ('\n') (submit_contents (basename run_dir)) := by
  have hevs : evs = [Event.mkdirs run_dir, Event.mkdirs trajectory_dir,
      Event.writeFile (trajectory_dir ++ ["01_submit_rerun.py"])
        (submit_contents (basename run_dir))] := by
    cases hfind : find_helper_file ctx (fs.applyEvents
        [Event.mkdirs run_dir, Event.mkdirs trajectory_dir,
         Event.writeFile (trajectory_dir ++ ["01_submit_rerun.py"])
           (submit_contents (basename run_dir))])
        ("script_rerun.sh") helpers_dir with
    | ok s =>
      have h2 := prepare_snd_ok_of_find_ok ctx fs source_dir run_dir trajectory_dir helpers_dir
        copy_to_run_dir dry_run s hfind
      rw [h] at h2
      cases h2
    | error m2 =>
      have h2 := prepare_eq_of_find_error ctx fs source_dir run_dir trajectory_dir helpers_dir
        copy_to_run_dir dry_run m2 hfind
      rw [h] at h2
      injection h2 with ha hb
  subst hevs
  refine ⟨rfl, ?_, ?_, ?_, ?_⟩
  · simp only [FS.applyEvents, List.foldl_cons, List.foldl_nil, FS.applyEvent, setB]
    by_cases hrt : run_dir = trajectory_dir <;> simp [hrt]
  · simp only [FS.applyEvents, List.foldl_cons, List.foldl_nil, FS.applyEvent, setB]
    simp
  · simp only [FS.applyEvents, List.foldl_cons, List.foldl_nil, FS.applyEvent, setB]
    simp
  · simp only [FS.applyEvents, List.foldl_cons, List.foldl_nil, FS.applyEvent, setB, setL]
    simp

/-- C8: the generated entry-point script text is a function of the basename of
the run directory alone: every writeFile event of the preparer carries exactly
submit_contents of that basename, so two calls whose run directories share a
basename write character-identical script text regardless of every other
argument; and with copy_to_run_dir set, the same generated text is written to
both the staging and the run directory, and the same located source file is
copied to both script destinations. -/
theorem C8_entry_script_determinism (ctx ctx2 : Ctx) (fs fs2 : FS)
    (src src2 run run2 traj traj2 : FPath) (helpers_dir helpers_dir2 : Option FPath)
    (cpy cpy2 dry dry2 : Bool) (s : FPath)
    (hb : basename run = basename run2)
    (hfind : find_helper_file ctx (fs.applyEvents
        [Event.mkdirs run, Event.mkdirs traj,
         Event.writeFile (traj ++ ["01_submit_rerun.py"]) (submit_contents (basename run))])
        ("script_rerun.sh") helpers_dir = Except.ok s) :
    (∀ p c, Event.writeFile p c ∈
        (prepare_and_submit_rerun ctx fs src run traj helpers_dir cpy dry).1 →
        c = submit_contents (basename run)) ∧
    (∀ p c p2 c2, Event.writeFile p c ∈
        (prepare_and_submit_rerun ctx fs src run traj helpers_dir cpy dry).1 →
        Event.writeFile p2 c2 ∈
          (prepare_and_submit_rerun ctx2 fs2 src2 run2 traj2 helpers_dir2 cpy2 dry2).1 →
        c = c2) ∧
    (Event.writeFile (traj ++ ["01_submit_rerun.py"]) (submit_contents (basename run)) ∈
        (prepare_and_submit_rerun ctx fs src run traj helpers_dir true dry).1 ∧
     Event.writeFile (run ++ ["01_submit_rerun.py"]) (submit_contents (basename run)) ∈
        (prepare_and_submit_rerun ctx fs src run traj helpers_dir true dry).1 ∧
     Event.copyFile s (traj ++ ["script_rerun.sh"]) ∈
        (prepare_and_submit_rerun ctx fs src run traj helpers_dir true dry).1 ∧
     Event.copyFile s (run ++ ["script_rerun.sh"]) ∈
        (prepare_and_submit_rerun ctx fs src run traj helpers_dir true dry).1) := by
  refine ⟨fun p c hm => prepare_writeFile_content ctx fs src run traj helpers_dir cpy dry p c hm,
    ?_, ?_⟩
  · intro p c p2 c2 hm hm2
    rw [prepare_writeFile_content ctx fs src run traj helpers_dir cpy dry p c hm,
      prepare_writeFile_content ctx2 fs2 src2 run2 traj2 helpers_dir2 cpy2 dry2 p2 c2 hm2, hb]
  · simp only [prepare_and_submit_rerun, hfind]
    cases dry <;> simp

set_option maxRecDepth 10000

/-- A concrete run environment for the end-to-end evaluations: fixed working
and script directories, sbatch executable absent. -/
def ctxD : Ctx where
  cwd := ["w"]
  scriptDir := ["s"]
  sbatch := none

/-- Concrete base state: one trajectory directory whose calculation subfolder
holds a readable, non-converged output artifact; a helpers directory holds the
submission script; no rerun directory exists yet. -/
def demoFS : FS where
  isDir := fun p =>
    decide (p = ["b"] ∨ p = ["b", "trajectory_0"] ∨ p = ["b", "trajectory_0", "opt"])
  isFile := fun p =>
    decide (p = ["b", "trajectory_0", "opt", "OUTCAR"] ∨ p = ["h", "script_rerun.sh"])
  readOk := fun p => decide (p = ["b", "trajectory_0", "opt", "OUTCAR"])
  lines := fun p =>
    if p = ["b", "trajectory_0", "opt", "OUTCAR"] then ["no convergence yet"] else []
  listdir := fun p => if p = ["b"] then ["trajectory_0"] else []

/-- The same base state with a converged output artifact. -/
def demoFSconv : FS where
  isDir := fun p =>
    decide (p = ["b"] ∨ p = ["b", "trajectory_0"] ∨ p = ["b", "trajectory_0", "opt"])
  isFile := fun p =>
    decide (p = ["b", "trajectory_0", "opt", "OUTCAR"] ∨ p = ["h", "script_rerun.sh"])
  readOk := fun p => decide (p = ["b", "trajectory_0", "opt", "OUTCAR"])
  lines := fun p =>
    if p = ["b", "trajectory_0", "opt", "OUTCAR"] then
      [" reached required accuracy - stopping structural energy minimisation"] else []
  listdir := fun p => if p = ["b"] then ["trajectory_0"] else []

/-- C2: evidence that dry-run mode is not effect-free.  With dry_run set, in a
state with one non-converged trajectory and no rerun directory, the batch run
still creates the rerun directory via mkdirs, writes the generated entry-point
script and copies the submission script into the staging directory; only the
recursive folder copy and the scheduler submission are suppressed, and the
diagnostics are the DRY-RUN variants rather than those of a live run.  This
contradicts the claim (and the CLI help text, which says dry run does not
modify files or submit jobs). -/
theorem C2_dry_run_still_writes :
    process ctxD demoFS ["b"] ("opt") 1 (some ["h"]) true =
      [Event.msg ("Not converged: trajectory_0/opt -> creating rerun folder"),
       Event.msg ("[DRY-RUN] Would copy folder: b/trajectory_0/opt -> b/trajectory_0/opt_run1"),
       Event.mkdirs ["b", "trajectory_0", "opt_run1"],
       Event.mkdirs ["b", "trajectory_0"],
       Event.writeFile ["b", "trajectory_0", "01_submit_rerun.py"] (submit_contents ("opt_run1")),
       Event.copyFile ["h", "script_rerun.sh"] ["b", "trajectory_0", "script_rerun.sh"],
       Event.chmodExec ["b", "trajectory_0", "script_rerun.sh"],
       Event.msg ("[DRY-RUN] Would submit: sbatch script_rerun.sh (cwd=b/trajectory_0)")] ∧
    demoFS.isDir ["b", "trajectory_0", "opt_run1"] = false ∧
    (demoFS.applyEvents (process ctxD demoFS ["b"] ("opt") 1 (some ["h"]) true)).isDir
      ["b", "trajectory_0", "opt_run1"] = true ∧
    (∀ q, Event.submit q ∉ process ctxD demoFS ["b"] ("opt") 1 (some ["h"]) true) ∧
    (∀ a b, Event.copyTree a b ∉ process ctxD demoFS ["b"] ("opt") 1 (some ["h"]) true) := by
  have hev : process ctxD demoFS ["b"] ("opt") 1 (some ["h"]) true =
      [Event.msg ("Not converged: trajectory_0/opt -> creating rerun folder"),
       Event.msg ("[DRY-RUN] Would copy folder: b/trajectory_0/opt -> b/trajectory_0/opt_run1"),
       Event.mkdirs ["b", "trajectory_0", "opt_run1"],
       Event.mkdirs ["b", "trajectory_0"],
       Event.writeFile ["b", "trajectory_0", "01_submit_rerun.py"] (submit_contents ("opt_run1")),
       Event.copyFile ["h", "script_rerun.sh"] ["b", "trajectory_0", "script_rerun.sh"],
       Event.chmodExec ["b", "trajectory_0", "script_rerun.sh"],
       Event.msg ("[DRY-RUN] Would submit: sbatch script_rerun.sh (cwd=b/trajectory_0)")] := by
    rfl
  refine ⟨hev, by decide, by decide, fun q hq => ?_, fun a b hq => ?_⟩
  · rw [hev] at hq
    simp at hq
  · rw [hev] at hq
    simp at hq

theorem C3_second_run_idempotence_witness :
    helperFound ctxD demoFS (some ["h"]) = true ∧
    (∀ a b, Event.copyTree a b ∉
      process ctxD (demoFS.applyEvents (process ctxD demoFS ["b"] ("opt") 1 (some ["h"]) false))
        ["b"] ("opt") 1 (some ["h"]) false) :=
  ⟨by decide,
   (C3_second_run_idempotence ctxD demoFS ["b"] ("opt") 1 (some ["h"]) (by decide)).1⟩

theorem C6_missing_helper_skips_witness :
    demoFS.isDir ((["b"] ++ ["trajectory_0"]) ++ ["opt"]) = true ∧
    demoFS.isFile (((["b"] ++ ["trajectory_0"]) ++ ["opt"]) ++ ["OUTCAR"]) = true ∧
    is_converged demoFS (((["b"] ++ ["trajectory_0"]) ++ ["opt"]) ++ ["OUTCAR"]) = false ∧
    helperFound ctxD demoFS none = false ∧
    Event.msg ("Could not find required file: script_rerun.sh") ∈
      processFolder ctxD demoFS ["b"] ("opt") 1 none false ("trajectory_0") :=
  ⟨by decide, by decide, by decide, by decide,
   (C6_missing_helper_skips ctxD demoFS ["b"] ("opt") 1 none false ("trajectory_0") []
     (by decide) (by decide) (by decide) (by decide)).1⟩

theorem C7_converged_no_effect_witness :
    is_converged demoFSconv (((["b"] ++ ["trajectory_0"]) ++ ["opt"]) ++ ["OUTCAR"]) = true ∧
    processFolder ctxD demoFSconv ["b"] ("opt") 1 (some ["h"]) false ("trajectory_0") =
      [Event.msg ("Converged: trajectory_0/opt")] :=
  ⟨by decide,
   (C7_converged_no_effect ctxD demoFSconv ["b"] ("opt") 1 (some ["h"]) false ("trajectory_0") []
     (by decide) (by decide) (by decide)).1⟩

theorem C8_entry_script_determinism_witness :
    basename ["x", "opt_run1"] = basename ["y", "opt_run1"] ∧
    find_helper_file ctxD (demoFS.applyEvents
      [Event.mkdirs ["x", "opt_run1"], Event.mkdirs ["t"],
       Event.writeFile (["t"] ++ ["01_submit_rerun.py"])
         (submit_contents (basename ["x", "opt_run1"]))])
      ("script_rerun.sh") (some ["h"]) = Except.ok ["h", "script_rerun.sh"] ∧
    (∀ p c, Event.writeFile p c ∈
        (prepare_and_submit_rerun ctxD demoFS ["src"] ["x", "opt_run1"] ["t"] (some ["h"])
          true false).1 →
        c = submit_contents (basename ["x", "opt_run1"])) :=
  ⟨by decide, by rfl,
   (C8_entry_script_determinism ctxD ctxD demoFS demoFS ["src"] ["src2"] ["x", "opt_run1"]
     ["y", "opt_run1"] ["t"] ["t2"] (some ["h"]) (some ["h"]) true true false false
     ["h", "script_rerun.sh"] (by decide) (by rfl)).1⟩

theorem C9_failure_not_atomic_witness :
    prepare_and_submit_rerun ctxD demoFS ["src"] ["x", "opt_run1"] ["t"] none false false =
      ([Event.mkdirs ["x", "opt_run1"], Event.mkdirs ["t"],
        Event.writeFile ["t", "01_submit_rerun.py"] (submit_contents ("opt_run1"))],
       Except.error ("Could not find required file: script_rerun.sh")) ∧
    (demoFS.applyEvents [Event.mkdirs ["x", "opt_run1"], Event.mkdirs ["t"],
        Event.writeFile ["t", "01_submit_rerun.py"] (submit_contents ("opt_run1"))]).isDir
      ["x", "opt_run1"] = true :=
  ⟨by rfl,
   (C9_failure_not_atomic ctxD demoFS ["src"] ["x", "opt_run1"] ["t"] none false false
     [Event.mkdirs ["x", "opt_run1"], Event.mkdirs ["t"],
      Event.writeFile ["t", "01_submit_rerun.py"] (submit_contents ("opt_run1"))]
     ("Could not find required file: script_rerun.sh") (by rfl)).2.1⟩
